import Mathlib

/-!
# Verification of the linseGenerator Session State Manager

A shallow embedding of `src/modules/stateManager` (types.ts, manager.ts,
contextManager.ts, analytics.ts, persistence.ts) together with proofs about
the embedded operations.

Modelling conventions:
* JavaScript objects become Lean structures; `Set<string>` becomes a
  duplicate-free, insertion-ordered `List String`; `Map<string, number>`
  becomes an insertion-ordered association list `List (String × Nat)`.
  All StateManager operations preserve these representation invariants,
  mirroring the JS `Set`/`Map` semantics (adding an existing element is a
  no-op; `Map.set` on an existing key updates in place).
* `crypto.randomUUID()` is modelled by a freshness counter `nextId : Nat`
  carried in the manager state: each call yields the current counter value
  and bumps it.  Identifiers are therefore `Nat` rather than opaque strings;
  freshness (the property `randomUUID` provides with overwhelming
  probability) becomes exact.
* `Date.now()` is modelled by an explicit `now : Int` argument to every
  operation; the several `Date.now()` calls inside one synchronous operation
  are taken to return the same instant.
* JS numbers are modelled as `Int` (timestamps, counters, stage numbers) or
  `ℚ` (`averageMadnessIndex`, which is a running mean).  Float rounding is
  idealised away; no claim in scope depends on float-specific behaviour.
* `JSON.stringify(x).length` (UTF-16 code units of the serialized text) is
  modelled by an explicit JSON syntax tree `Json` with a `size` function that
  computes exactly the code-unit length JavaScript would report, including
  string escaping.  `JSON.stringify` emits no whitespace by default, omits
  object properties whose value is `undefined`, and serializes `Set`/`Map`
  objects as `{}` (they have no own enumerable properties).
-/

/-! ## JSON serialization-size model -/

/-- JSON syntax trees, as produced by `JSON.stringify` on the data handled by
the state manager (strings, integer numbers, arrays, plain objects).  Numbers
are restricted to integers: every number serialized in a `SessionContext` is a
timestamp, stage index or madness level, modelled as `Int`. -/
inductive Json where
  | str : String → Json
  | num : Int → Json
  | arr : List Json → Json
  | obj : List (String × Json) → Json
deriving Inhabited

/-- Length of one character in UTF-16 code units (JS `String.prototype.length`
counts code units, so astral characters count twice). -/
def utf16Len (c : Char) : Nat :=
  if c.val < 0x10000 then 1 else 2

/-- UTF-16 code-unit length of a string, i.e. the JS `.length` of the string
itself. -/
def jsLength (s : String) : Nat :=
  (s.data.map utf16Len).sum

/-- Code units contributed by one character inside a JSON string literal:
`"` and `\` are escaped to two code units, the five control characters with
short escapes (`\b \t \n \f \r`) take two, remaining control characters take a
six-unit `\uXXXX` escape, and everything else is emitted verbatim. -/
def jsonEscLen (c : Char) : Nat :=
  if c = '"' ∨ c = '\\' then 2
  else if c = Char.ofNat 8 ∨ c = Char.ofNat 9 ∨ c = Char.ofNat 10 ∨
          c = Char.ofNat 12 ∨ c = Char.ofNat 13 then 2
  else if c.val < 0x20 then 6
  else utf16Len c

/-- Code-unit length of the JSON string literal for `s`, including the two
enclosing quotes. -/
def jsonStrLen (s : String) : Nat :=
  2 + (s.data.map jsonEscLen).sum

/-- Code-unit length of the decimal representation of an integer (JS prints
the integers appearing here — timestamps, counts, levels — in plain decimal,
matching Lean's `Int` representation, sign included). -/
def intRepLen (n : Int) : Nat :=
  (toString n).length

mutual

/-- Code-unit length of `JSON.stringify` applied to this value (default
stringify: no added whitespace). -/
def Json.size : Json → Nat
  | .str s => jsonStrLen s
  | .num n => intRepLen n
  | .arr xs => 2 + Json.sizeArr xs
  | .obj kvs => 2 + Json.sizeObj kvs

/-- Combined length of comma-separated array members. -/
def Json.sizeArr : List Json → Nat
  | [] => 0
  | [x] => x.size
  | x :: y :: rest => x.size + 1 + Json.sizeArr (y :: rest)

/-- Combined length of comma-separated `"key":value` object members. -/
def Json.sizeObj : List (String × Json) → Nat
  | [] => 0
  | [(k, v)] => jsonStrLen k + 1 + v.size
  | (k, v) :: e :: rest => jsonStrLen k + 1 + v.size + 1 + Json.sizeObj (e :: rest)

end

/-! ## Data model (`types.ts`) -/

/-- One element of `SessionContext.generatedLenses`. -/
structure Lens where
  timestamp : Int
  prompt : String
  domains : List String
deriving Repr, DecidableEq, Inhabited

/-- One element of an evolution chain's `stages`. -/
structure EvolutionStage where
  stage : Int
  content : String
  madnessLevel : Int
  timestamp : Int
deriving Repr, DecidableEq, Inhabited

/-- One element of `SessionContext.evolutionChains`. -/
structure EvolutionChain where
  originalIdea : String
  stages : List EvolutionStage
  currentStage : Int
deriving Repr, DecidableEq, Inhabited

/-- One element of `SessionContext.hybridAttempts`; `result` is an optional
property (`result?: string`), omitted from JSON when absent. -/
structure HybridAttempt where
  ideaA : String
  ideaB : String
  method : String
  result : Option String
  timestamp : Int
deriving Repr, DecidableEq, Inhabited

/-- `SessionContext` from `types.ts`. -/
structure SessionContext where
  currentProblem : String
  generatedLenses : List Lens
  evolutionChains : List EvolutionChain
  hybridAttempts : List HybridAttempt
deriving Repr, DecidableEq, Inhabited

/-- `SessionMetrics` from `types.ts`.  `uniqueDomainsUsed : Set<string>` is a
duplicate-free insertion-ordered list; `toolUsage : Map<string, number>` is an
insertion-ordered association list with distinct keys. -/
structure SessionMetrics where
  totalGenerations : Nat
  averageMadnessIndex : ℚ
  uniqueDomainsUsed : List String
  successfulHybrids : Nat
  toolUsage : List (String × Nat)
deriving Repr, DecidableEq, Inhabited

/-- `SessionPreferences` from `types.ts` (all properties optional). -/
structure SessionPreferences where
  preferredDomains : Option (List String)
  avoidDomains : Option (List String)
  targetMadnessLevel : Option Int
deriving Repr, DecidableEq, Inhabited

/-- `Session` from `types.ts`.  `id` is a `Nat` produced by the freshness
counter standing in for `crypto.randomUUID()`. -/
structure Session where
  id : Nat
  userId : String
  startTime : Int
  lastActivity : Int
  context : SessionContext
  metrics : SessionMetrics
  preferences : SessionPreferences
deriving Repr, DecidableEq, Inhabited

/-- `StateSnapshot` from `types.ts`.  The `checksum` field is the SHA-256 hex
digest of `JSON.stringify(session)` in the source; since no operation or claim
ever inspects the digest, it is modelled by the hashed session content itself
(a collision-free stand-in for the hash). -/
structure StateSnapshot where
  id : Nat
  sessionId : Nat
  timestamp : Int
  state : Session
  checksum : Session
deriving Repr, DecidableEq, Inhabited

/-! ## JSON encoding of the context

`JSON.stringify` on a `SessionContext` (all plain data) is modelled by these
encoders; only its length is ever consumed by the source (`maxContextSize`
checks, `trimContext` proportions, the 50KB health check). -/

/-- JSON encoding of a lens entry: `{"timestamp":…,"prompt":…,"domains":…}`
(property order follows the object-literal order in `manager.ts`). -/
def Lens.toJson (l : Lens) : Json :=
  .obj [("timestamp", .num l.timestamp), ("prompt", .str l.prompt),
        ("domains", .arr (l.domains.map Json.str))]

/-- JSON encoding of one evolution stage. -/
def EvolutionStage.toJson (s : EvolutionStage) : Json :=
  .obj [("stage", .num s.stage), ("content", .str s.content),
        ("madnessLevel", .num s.madnessLevel), ("timestamp", .num s.timestamp)]

/-- JSON encoding of one evolution chain. -/
def EvolutionChain.toJson (c : EvolutionChain) : Json :=
  .obj [("originalIdea", .str c.originalIdea),
        ("stages", .arr (c.stages.map EvolutionStage.toJson)),
        ("currentStage", .num c.currentStage)]

/-- JSON encoding of one hybrid attempt; an absent `result` property is
omitted entirely, as `JSON.stringify` drops `undefined` properties. -/
def HybridAttempt.toJson (h : HybridAttempt) : Json :=
  .obj ([("ideaA", .str h.ideaA), ("ideaB", .str h.ideaB),
         ("method", .str h.method)] ++
        (match h.result with
         | some r => [("result", Json.str r)]
         | none => []) ++
        [("timestamp", .num h.timestamp)])

/-- JSON encoding of a full `SessionContext`. -/
def SessionContext.toJson (c : SessionContext) : Json :=
  .obj [("currentProblem", .str c.currentProblem),
        ("generatedLenses", .arr (c.generatedLenses.map Lens.toJson)),
        ("evolutionChains", .arr (c.evolutionChains.map EvolutionChain.toJson)),
        ("hybridAttempts", .arr (c.hybridAttempts.map HybridAttempt.toJson))]

/-- `JSON.stringify(context).length` as computed throughout `manager.ts`,
`contextManager.ts` and `analytics.ts`. -/
def contextSize (c : SessionContext) : Nat :=
  c.toJson.size

example : (Json.str "ab").size = 4 := by decide
example : (Json.arr []).size = 2 := by decide
example : (Json.obj [("a", .num 10)]).size = 8 := by decide
example :
    contextSize { currentProblem := "p", generatedLenses := [],
                  evolutionChains := [], hybridAttempts := [] } = 84 := by
  decide

/-! ## ContextManager (`contextManager.ts`) -/

/-- `ContextManager.trimArray(array, maxLength)`.  The source returns the
array when `array.length <= maxLength` and otherwise `array.slice(-maxLength)`.
JavaScript's negative-index slice keeps the last `maxLength` elements when
`maxLength > 0`, but `slice(-0)` is `slice(0)`, which returns the whole array:
a request to keep zero elements keeps all of them. -/
def trimArray {α : Type} (array : List α) (maxLength : Nat) : List α :=
  if array.length ≤ maxLength then array
  else if maxLength = 0 then array
  else array.drop (array.length - maxLength)

/-- Serialized size of the `generatedLenses` sub-collection,
`JSON.stringify(context.generatedLenses || []).length` (the `|| []` guard only
matters for `null`/`undefined`, which the embedded type excludes). -/
def lensesJsonSize (c : SessionContext) : Nat :=
  (Json.arr (c.generatedLenses.map Lens.toJson)).size

/-- Serialized size of the `evolutionChains` sub-collection. -/
def chainsJsonSize (c : SessionContext) : Nat :=
  (Json.arr (c.evolutionChains.map EvolutionChain.toJson)).size

/-- Serialized size of the `hybridAttempts` sub-collection. -/
def hybridsJsonSize (c : SessionContext) : Nat :=
  (Json.arr (c.hybridAttempts.map HybridAttempt.toJson)).size

/-- Total serialized size of the three sub-collections, the divisor of the
reduction factor in `trimContext`.  Even for empty collections this is
`2 + 2 + 2 = 6 > 0`. -/
def trimTotalSize (c : SessionContext) : Nat :=
  lensesJsonSize c + chainsJsonSize c + hybridsJsonSize c

/-- `ContextManager.trimContext(context, maxSize)`.  The initial
`if (!context)` guard is unreachable for the non-nullable embedded type and is
dropped.  `Math.floor(length * (maxSize / totalSize))` — exact rational
arithmetic rather than binary floats — is `length * maxSize / totalSize` in
truncating natural division. -/
def trimContext (context : SessionContext) (maxSize : Nat) : SessionContext :=
  if contextSize context ≤ maxSize then context
  else
    let totalSize := trimTotalSize context
    { currentProblem := context.currentProblem,
      generatedLenses := trimArray context.generatedLenses
        (context.generatedLenses.length * maxSize / totalSize),
      evolutionChains := trimArray context.evolutionChains
        (context.evolutionChains.length * maxSize / totalSize),
      hybridAttempts := trimArray context.hybridAttempts
        (context.hybridAttempts.length * maxSize / totalSize) }

/-! ## SessionAnalytics (`analytics.ts`): session health -/

/-- Result of `SessionAnalytics.calculateSessionHealth`. -/
structure SessionHealth where
  score : Int
  issues : List String
deriving Repr, DecidableEq, Inhabited

/-- `SessionAnalytics.calculateSessionHealth(session)`: starts at 100,
subtracts 10 for a context serialized above 50KB, 20 for more than 30 minutes
of inactivity, 15 for fewer than 5 unique domains, pushing one issue string
per triggered condition, and clamps the final score at 0 from below. -/
def calculateSessionHealth (session : Session) (now : Int) : SessionHealth :=
  let issues : List String := []
  let score : Int := 100
  let contextSz := contextSize session.context
  let (score, issues) :=
    if contextSz > 50 * 1024 then
      (score - 10, issues ++ ["Context size is large, consider trimming"])
    else (score, issues)
  let inactiveDuration := now - session.lastActivity
  let (score, issues) :=
    if inactiveDuration > 30 * 60 * 1000 then
      (score - 20, issues ++ ["Session has been inactive for over 30 minutes"])
    else (score, issues)
  let (score, issues) :=
    if session.metrics.uniqueDomainsUsed.length < 5 then
      (score - 15, issues ++ ["Low domain diversity"])
    else (score, issues)
  { score := max 0 score, issues := issues }

/-! ## Association-list model of JavaScript `Map`

JS `Map` iterates in insertion order; `set` on an existing key updates the
value in place (the key keeps its original position), `set` on a new key
appends; `delete` removes the key's single entry.  An association list with
these operations reproduces that behaviour exactly (on key-duplicate-free
lists, which every operation preserves). -/

/-- `Map.prototype.get` (`none` for a missing key, JS `undefined`). -/
def mapGet {κ α : Type} [DecidableEq κ] : List (κ × α) → κ → Option α
  | [], _ => none
  | (k', v) :: rest, k => if k' = k then some v else mapGet rest k

/-- `Map.prototype.set`. -/
def mapSet {κ α : Type} [DecidableEq κ] : List (κ × α) → κ → α → List (κ × α)
  | [], k, v => [(k, v)]
  | (k', v') :: rest, k, v =>
    if k' = k then (k, v) :: rest else (k', v') :: mapSet rest k v

/-- `Map.prototype.delete` (the result map; on duplicate-free keys at most one
entry matches). -/
def mapDelete {κ α : Type} [DecidableEq κ] : List (κ × α) → κ → List (κ × α)
  | [], _ => []
  | (k', v') :: rest, k =>
    if k' = k then mapDelete rest k else (k', v') :: mapDelete rest k

/-! ## PersistenceHandler (`persistence.ts`), memory backend

Only the `memory` backend with the compression flag off is in scope: `save`
stores `JSON.stringify(data)` in `memoryStore` under the key, and `load`
returns `null` for a missing key and otherwise `JSON.parse` of the stored
text.  The stored text is represented by its parse — `save` therefore stores
the JSON round-trip image of the value (`JSON.parse ∘ JSON.stringify`), which
is exactly what `load` observes.  (`JSON.stringify` of a defined value is
never the empty string, so the falsy-data guard `if (!data) return null` in
`load` fires only for missing keys.) -/

/-- Runtime values passed to `save`: the JSON-representable values plus the
`Set` and `Map` objects that sessions embed.  `JSON.stringify` serializes a
`Set` or `Map` as `{}` — they have no own enumerable properties — which is
how their contents are lost on persistence. -/
inductive JsValue where
  | str : String → JsValue
  | num : Int → JsValue
  | bool : Bool → JsValue
  | null : JsValue
  | arr : List JsValue → JsValue
  | obj : List (String × JsValue) → JsValue
  | set : List JsValue → JsValue
  | map : List (JsValue × JsValue) → JsValue
deriving Inhabited

mutual

/-- `JSON.parse(JSON.stringify(v))`: the identity on JSON-representable data,
but any `Set` or `Map` object collapses to the empty plain object. -/
def jsonRoundTrip : JsValue → JsValue
  | .str s => .str s
  | .num n => .num n
  | .bool b => .bool b
  | .null => .null
  | .arr xs => .arr (jsonRoundTripArr xs)
  | .obj kvs => .obj (jsonRoundTripObj kvs)
  | .set _ => .obj []
  | .map _ => .obj []

/-- Round trip of the elements of an array. -/
def jsonRoundTripArr : List JsValue → List JsValue
  | [] => []
  | x :: rest => jsonRoundTrip x :: jsonRoundTripArr rest

/-- Round trip of the properties of a plain object. -/
def jsonRoundTripObj : List (String × JsValue) → List (String × JsValue)
  | [] => []
  | (k, v) :: rest => (k, jsonRoundTrip v) :: jsonRoundTripObj rest

end

/-- The `memoryStore` map of `PersistenceHandler`. -/
def MemoryStore : Type := List (String × JsValue)

/-- `PersistenceHandler.save(key, data)` on the memory backend, compression
off: `memoryStore.set(key, JSON.stringify(data))`. -/
def memSave (store : MemoryStore) (key : String) (data : JsValue) : MemoryStore :=
  mapSet store key (jsonRoundTrip data)

/-- `PersistenceHandler.load(key)` on the memory backend, compression off:
`memoryStore.get(key)`, `null` when missing, otherwise the parsed value. -/
def memLoad (store : MemoryStore) (key : String) : Option JsValue :=
  mapGet store key

/-! ## StateManager (`manager.ts`) -/

/-- The `limits` block of `StateManagerOptions` (the only configuration the
registry operations consult). -/
structure StateManagerLimits where
  maxSessionAge : Int
  maxSnapshots : Nat
  maxContextSize : Nat
  maxSessions : Nat
deriving Repr, DecidableEq, Inhabited

/-- The default `STATE_CONFIG.limits` from `config.ts`. -/
def defaultLimits : StateManagerLimits :=
  { maxSessionAge := 7 * 24 * 60 * 60 * 1000, maxSnapshots := 50,
    maxContextSize := 100 * 1024, maxSessions := 1000 }

/-- The in-memory state of a `StateManager` instance: the session registry,
the per-session snapshot registry (both JS `Map`s in insertion order), the
configured limits, and the freshness counter standing in for
`crypto.randomUUID()`. -/
structure MgrState where
  sessions : List (Nat × Session)
  snapshots : List (Nat × List StateSnapshot)
  limits : StateManagerLimits
  nextId : Nat
deriving Repr, DecidableEq, Inhabited

/-- The errors thrown by the strict StateManager operations. -/
inductive MgrError where
  | sessionNotFound (id : Nat)
  | snapshotNotFound (id : Nat)
  | importFailed
deriving Repr, DecidableEq

/-- A freshly constructed manager: empty registries. -/
def initialState (limits : StateManagerLimits) : MgrState :=
  { sessions := [], snapshots := [], limits := limits, nextId := 0 }

/-- `StateManager.createDefaultMetrics()`. -/
def createDefaultMetrics : SessionMetrics :=
  { totalGenerations := 0, averageMadnessIndex := 0, uniqueDomainsUsed := [],
    successfulHybrids := 0, toolUsage := [] }

/-- `Array.from(sessions.values()).sort((a, b) => a.lastActivity - b.lastActivity)[0]`:
the stable ascending sort puts at index 0 the first session (in registry
insertion order) among those with minimal `lastActivity`; a left fold keeping
the current best on ties computes the same element. -/
def findOldestSession : List Session → Option Session
  | [] => none
  | s :: rest =>
    some (rest.foldl (fun best x => if x.lastActivity < best.lastActivity then x else best) s)

/-- `StateManager.deleteSession(sessionId)`: drops the session's snapshots,
then the session itself; the returned flag reports whether the session key
was present. -/
def deleteSession (st : MgrState) (sessionId : Nat) : MgrState × Bool :=
  ({ st with snapshots := mapDelete st.snapshots sessionId,
             sessions := mapDelete st.sessions sessionId },
   (mapGet st.sessions sessionId).isSome)

/-- The capacity check opening `createSession`: when the registry is at or
above `maxSessions`, delete the oldest-by-`lastActivity` session (the
`if (oldestSession)` guard fails only for an empty registry). -/
def evictIfFull (st : MgrState) : MgrState :=
  if st.sessions.length ≥ st.limits.maxSessions then
    match findOldestSession (st.sessions.map Prod.snd) with
    | some oldest => (deleteSession st oldest.id).1
    | none => st
  else st

/-- `StateManager.createSession(userId, initialProblem?)`: evicts the
oldest-by-`lastActivity` session when the registry is at or above
`maxSessions`, then inserts a fresh session under a fresh id.
`initialProblem || ''` is `getD ""` (the empty string is its own JS-falsy
fallback). -/
def createSession (st : MgrState) (userId : String) (initialProblem : Option String)
    (now : Int) : MgrState × Session :=
  let st := evictIfFull st
  let session : Session :=
    { id := st.nextId, userId := userId, startTime := now, lastActivity := now,
      context := { currentProblem := initialProblem.getD "", generatedLenses := [],
                   evolutionChains := [], hybridAttempts := [] },
      metrics := createDefaultMetrics,
      preferences := { preferredDomains := none, avoidDomains := none,
                       targetMadnessLevel := none } }
  ({ st with sessions := mapSet st.sessions session.id session,
             nextId := st.nextId + 1 }, session)

/-- `StateManager.getSession(sessionId)` (`null` becomes `none`). -/
def getSession (st : MgrState) (sessionId : Nat) : Option Session :=
  mapGet st.sessions sessionId

/-- The runtime shape of the `context` part of a `Partial<Session>` update:
each property either absent or supplied. -/
structure ContextUpdate where
  currentProblem : Option String
  generatedLenses : Option (List Lens)
  evolutionChains : Option (List EvolutionChain)
  hybridAttempts : Option (List HybridAttempt)
deriving Repr, DecidableEq, Inhabited

/-- The runtime shape of the `metrics` part of an update (shallow-merged). -/
structure MetricsUpdate where
  totalGenerations : Option Nat
  averageMadnessIndex : Option ℚ
  uniqueDomainsUsed : Option (List String)
  successfulHybrids : Option Nat
  toolUsage : Option (List (String × Nat))
deriving Repr, DecidableEq, Inhabited

/-- The runtime shape of the `preferences` part of an update. -/
structure PreferencesUpdate where
  preferredDomains : Option (List String)
  avoidDomains : Option (List String)
  targetMadnessLevel : Option Int
deriving Repr, DecidableEq, Inhabited

/-- A `Partial<Session>` as consumed by `deepMergeSession`.  Top-level scalar
properties (`id`, `userId`, `startTime`, `lastActivity`, …) of the update are
ignored by the source — `deepMergeSession` starts from `{ ...target }` and
only merges the three nested objects — so only those three appear here. -/
structure SessionUpdate where
  context : Option ContextUpdate
  metrics : Option MetricsUpdate
  preferences : Option PreferencesUpdate
deriving Repr, DecidableEq, Inhabited

/-- `StateManager.deepMergeSession(target, source)`: concatenates the three
context sub-arrays (target first), lets a supplied `currentProblem` override,
and shallow-merges `metrics` and `preferences`. -/
def deepMergeSession (target : Session) (source : SessionUpdate) : Session :=
  let result := target
  let result :=
    match source.context with
    | none => result
    | some c =>
      { result with context :=
        { currentProblem := c.currentProblem.getD target.context.currentProblem,
          generatedLenses := target.context.generatedLenses ++ c.generatedLenses.getD [],
          evolutionChains := target.context.evolutionChains ++ c.evolutionChains.getD [],
          hybridAttempts := target.context.hybridAttempts ++ c.hybridAttempts.getD [] } }
  let result :=
    match source.metrics with
    | none => result
    | some m =>
      { result with metrics :=
        { totalGenerations := m.totalGenerations.getD target.metrics.totalGenerations,
          averageMadnessIndex :=
            m.averageMadnessIndex.getD target.metrics.averageMadnessIndex,
          uniqueDomainsUsed := m.uniqueDomainsUsed.getD target.metrics.uniqueDomainsUsed,
          successfulHybrids := m.successfulHybrids.getD target.metrics.successfulHybrids,
          toolUsage := m.toolUsage.getD target.metrics.toolUsage } }
  let result :=
    match source.preferences with
    | none => result
    | some p =>
      { result with preferences :=
        { preferredDomains := p.preferredDomains.or target.preferences.preferredDomains,
          avoidDomains := p.avoidDomains.or target.preferences.avoidDomains,
          targetMadnessLevel :=
            p.targetMadnessLevel.or target.preferences.targetMadnessLevel } }
  result

/-- `StateManager.updateSession(sessionId, updates)`: throws when the session
is unknown; otherwise deep-merges, stamps `lastActivity`, and applies
`trimContext` when the merged context's serialized size exceeds
`maxContextSize`. -/
def updateSession (st : MgrState) (sessionId : Nat) (updates : SessionUpdate)
    (now : Int) : Except MgrError MgrState :=
  match mapGet st.sessions sessionId with
  | none => .error (.sessionNotFound sessionId)
  | some session =>
    let updated := deepMergeSession session updates
    let updated := { updated with lastActivity := now }
    let updated :=
      if contextSize updated.context > st.limits.maxContextSize then
        { updated with
            context := trimContext updated.context st.limits.maxContextSize }
      else updated
    .ok { st with sessions := mapSet st.sessions sessionId updated }

/-- `JSON.parse(JSON.stringify(session))`, the deep clone used by
`createSnapshot` and `rollbackToSnapshot`: a fresh structure sharing nothing
with the live session, equal to it on all plain-JSON data, but with the
`Set`/`Map` metric collections collapsed to empty objects (serialized as
`{}`).  After the clone those two fields hold plain objects, not `Set`/`Map`
instances; the model renders both as the empty collection. -/
def jsonCloneSession (s : Session) : Session :=
  { s with metrics := { s.metrics with uniqueDomainsUsed := [], toolUsage := [] } }

/-- `StateManager.createSnapshot(sessionId)`: throws for an unknown session;
otherwise deep-clones it into a snapshot with a fresh id, appends it to the
session's snapshot list, and shifts off the oldest entry when the list
exceeds `maxSnapshots`. -/
def createSnapshot (st : MgrState) (sessionId : Nat) (now : Int) :
    Except MgrError (MgrState × StateSnapshot) :=
  match mapGet st.sessions sessionId with
  | none => .error (.sessionNotFound sessionId)
  | some session =>
    let snapshot : StateSnapshot :=
      { id := st.nextId, sessionId := sessionId, timestamp := now,
        state := jsonCloneSession session, checksum := session }
    let sessionSnapshots := (mapGet st.snapshots sessionId).getD [] ++ [snapshot]
    let sessionSnapshots :=
      if sessionSnapshots.length > st.limits.maxSnapshots then sessionSnapshots.drop 1
      else sessionSnapshots
    .ok ({ st with snapshots := mapSet st.snapshots sessionId sessionSnapshots,
                   nextId := st.nextId + 1 }, snapshot)

/-- `StateManager.listSnapshots(sessionId)`. -/
def listSnapshots (st : MgrState) (sessionId : Nat) : List StateSnapshot :=
  (mapGet st.snapshots sessionId).getD []

/-- The scan of `rollbackToSnapshot`: walk the snapshot registry in insertion
order and return the first entry's key together with the first snapshot in
its list whose id matches. -/
def findSnapshotEntry (entries : List (Nat × List StateSnapshot)) (snapshotId : Nat) :
    Option (Nat × StateSnapshot) :=
  match entries with
  | [] => none
  | (sessionId, snaps) :: rest =>
    match snaps.find? (fun s => s.id = snapshotId) with
    | some snapshot => some (sessionId, snapshot)
    | none => findSnapshotEntry rest snapshotId

/-- `StateManager.rollbackToSnapshot(snapshotId)`: finds the snapshot anywhere
in the registry, deep-clones its captured state back into the session
registry under that entry's session key, and returns the restored session;
throws when no snapshot matches. -/
def rollbackToSnapshot (st : MgrState) (snapshotId : Nat) :
    Except MgrError (MgrState × Session) :=
  match findSnapshotEntry st.snapshots snapshotId with
  | some (sessionId, snapshot) =>
    let restoredSession := jsonCloneSession snapshot.state
    .ok ({ st with sessions := mapSet st.sessions sessionId restoredSession },
         restoredSession)
  | none => .error (.snapshotNotFound snapshotId)

/-- The `data` payloads of `addToContext`, one shape per `contextType` (the
switch's default branch — any other type string — only stamps
`lastActivity`, and is not needed by any claim).  For `hybrid`, the source
spreads `data` and overwrites its `timestamp`, so the payload carries no
timestamp of its own. -/
inductive ContextData where
  | lens (prompt : String) (domains : Option (List String))
  | evolution (originalIdea : String) (stage : EvolutionStage)
  | hybrid (ideaA : String) (ideaB : String) (method : String) (result : Option String)
deriving Repr, DecidableEq

/-- The `evolution` branch of `addToContext`: mutate the first chain whose
`originalIdea` matches — push the stage and point `currentStage` at it — or
push a fresh single-stage chain when none matches. -/
def addEvolution (chains : List EvolutionChain) (originalIdea : String)
    (stage : EvolutionStage) : List EvolutionChain :=
  match chains with
  | [] => [{ originalIdea := originalIdea, stages := [stage], currentStage := 0 }]
  | c :: rest =>
    if c.originalIdea = originalIdea then
      { c with stages := c.stages ++ [stage],
               currentStage := ((c.stages ++ [stage]).length : Int) - 1 } :: rest
    else c :: addEvolution rest originalIdea stage

/-- `StateManager.addToContext(sessionId, contextType, data)`: silently
returns when the session is unknown; otherwise appends the artifact to the
matching context collection (mutating the session in place, which the model
renders as writing the updated session back under its unchanged key) and
stamps `lastActivity`.  No size check of any kind is performed here. -/
def addToContext (st : MgrState) (sessionId : Nat) (data : ContextData)
    (now : Int) : MgrState :=
  match mapGet st.sessions sessionId with
  | none => st
  | some session =>
    let session :=
      match data with
      | .lens prompt domains =>
        { session with context := { session.context with
            generatedLenses := session.context.generatedLenses ++
              [({ timestamp := now, prompt := prompt,
                  domains := domains.getD [] } : Lens)] } }
      | .evolution originalIdea stage =>
        { session with context := { session.context with
            evolutionChains :=
              addEvolution session.context.evolutionChains originalIdea stage } }
      | .hybrid ideaA ideaB method result =>
        { session with context := { session.context with
            hybridAttempts := session.context.hybridAttempts ++
              [({ ideaA := ideaA, ideaB := ideaB, method := method,
                  result := result, timestamp := now } : HybridAttempt)] } }
    let session := { session with lastActivity := now }
    { st with sessions := mapSet st.sessions sessionId session }

/-- The `(metric, value)` pairs of `updateMetrics`, one constructor per case
of the switch; `totalGenerations` and `successfulHybrid` ignore their
`value`. -/
inductive MetricUpdate where
  | totalGenerations
  | madnessIndex (value : ℚ)
  | domain (value : String)
  | successfulHybrid
  | toolUsage (value : String)
deriving Repr, DecidableEq

/-- `Set.prototype.add`: append if absent, no-op if present. -/
def setAdd (s : List String) (v : String) : List String :=
  if v ∈ s then s else s ++ [v]

/-- `StateManager.updateMetrics(sessionId, metric, value)`: silently returns
when the session is unknown; for `madnessIndex` folds the value into the
running mean using the current `totalGenerations` (replaced by 1 when it is
0, the JS `|| 1`) as divisor; stamps `lastActivity`. -/
def updateMetrics (st : MgrState) (sessionId : Nat) (metric : MetricUpdate)
    (now : Int) : MgrState :=
  match mapGet st.sessions sessionId with
  | none => st
  | some session =>
    let metrics := session.metrics
    let metrics :=
      match metric with
      | .totalGenerations =>
        { metrics with totalGenerations := metrics.totalGenerations + 1 }
      | .madnessIndex value =>
        let currentAvg := metrics.averageMadnessIndex
        let count : Nat := if metrics.totalGenerations = 0 then 1
                           else metrics.totalGenerations
        { metrics with averageMadnessIndex :=
            (currentAvg * ((count : ℚ) - 1) + value) / (count : ℚ) }
      | .domain value =>
        { metrics with uniqueDomainsUsed := setAdd metrics.uniqueDomainsUsed value }
      | .successfulHybrid =>
        { metrics with successfulHybrids := metrics.successfulHybrids + 1 }
      | .toolUsage value =>
        let currentCount := (mapGet metrics.toolUsage value).getD 0
        { metrics with toolUsage := mapSet metrics.toolUsage value (currentCount + 1) }
    let session := { session with metrics := metrics, lastActivity := now }
    { st with sessions := mapSet st.sessions sessionId session }

/-- The export blob of `exportSession` after JSON round-tripping.  The
`session` field had its `Set`/`Map` metrics converted by `Array.from` to
insertion-ordered arrays — exactly the model's list representation — so it
coincides with the model session and the text round trip is the identity.
The bundled analytics `report` is never read back by `importSession` (nor by
any claim) and draws placeholder scores from `Math.random`, so it is not
modelled. -/
structure ExportData where
  session : Session
  snapshots : List StateSnapshot
  exportTimestamp : Int
  version : String
deriving Repr, DecidableEq

/-- `StateManager.exportSession(sessionId)`: throws for an unknown session;
otherwise bundles the session, its snapshots and the version tag `"1.0.0"`. -/
def exportSession (st : MgrState) (sessionId : Nat) (now : Int) :
    Except MgrError ExportData :=
  match mapGet st.sessions sessionId with
  | none => .error (.sessionNotFound sessionId)
  | some session =>
    .ok { session := session,
          snapshots := (mapGet st.snapshots sessionId).getD [],
          exportTimestamp := now, version := "1.0.0" }

/-- `new Set(array)`: add the elements left to right (first occurrence keeps
its position, later duplicates are dropped). -/
def setFromArray (arr : List String) : List String :=
  arr.foldl setAdd []

/-- `new Map(pairs)`: `set` the pairs left to right (a repeated key keeps its
first position with the last value). -/
def mapFromPairs (pairs : List (String × Nat)) : List (String × Nat) :=
  pairs.foldl (fun m p => mapSet m p.1 p.2) []

/-- `StateManager.importSession(exportData)`: rejects a blob with a falsy
version tag (for strings: the empty string; the model's blob always carries a
`session`, so `!data.session` cannot fire), assigns a fresh id, rehydrates
the set/map metric fields, registers the session, and re-keys the blob's
snapshot list (an array, always truthy in JS, even empty) under the new id. -/
def importSession (st : MgrState) (blob : ExportData) :
    Except MgrError (MgrState × Session) :=
  if blob.version = "" then .error .importFailed
  else
    let session := blob.session
    let session := { session with id := st.nextId }
    let session := { session with metrics :=
      { session.metrics with
          uniqueDomainsUsed := setFromArray session.metrics.uniqueDomainsUsed,
          toolUsage := mapFromPairs session.metrics.toolUsage } }
    let st := { st with sessions := mapSet st.sessions session.id session }
    let st := { st with snapshots := mapSet st.snapshots session.id blob.snapshots }
    .ok ({ st with nextId := st.nextId + 1 }, session)

/-- `StateManager.cleanupInactiveSessions(maxInactiveMs)`: deletes (via
`deleteSession`, so together with their snapshots) exactly the sessions with
`now − lastActivity > maxInactiveMs`, returning how many. -/
def cleanupInactiveSessions (st : MgrState) (maxInactiveMs : Int) (now : Int) :
    MgrState × Nat :=
  let deletedIds :=
    (st.sessions.filter (fun p => decide (now - p.2.lastActivity > maxInactiveMs))).map
      Prod.fst
  ({ st with
      sessions :=
        st.sessions.filter (fun p => !decide (now - p.2.lastActivity > maxInactiveMs)),
      snapshots := st.snapshots.filter (fun q => !decide (q.1 ∈ deletedIds)) },
   deletedIds.length)

/-! ## Operation language over the manager

The public mutating operations as a syntax, to quantify over call sequences.
A throwing operation leaves the registries exactly as they were (every strict
operation validates before mutating), so its state effect is "unchanged on
error". -/

/-- State effect of `updateSession` (unchanged when it throws). -/
def updateSessionState (st : MgrState) (sessionId : Nat) (updates : SessionUpdate)
    (now : Int) : MgrState :=
  match updateSession st sessionId updates now with
  | .ok st' => st'
  | .error _ => st

/-- State effect of `createSnapshot` (unchanged when it throws). -/
def createSnapshotState (st : MgrState) (sessionId : Nat) (now : Int) : MgrState :=
  match createSnapshot st sessionId now with
  | .ok (st', _) => st'
  | .error _ => st

/-- State effect of `rollbackToSnapshot` (unchanged when it throws). -/
def rollbackState (st : MgrState) (snapshotId : Nat) : MgrState :=
  match rollbackToSnapshot st snapshotId with
  | .ok (st', _) => st'
  | .error _ => st

/-- State effect of `importSession` (unchanged when it throws). -/
def importState (st : MgrState) (blob : ExportData) : MgrState :=
  match importSession st blob with
  | .ok (st', _) => st'
  | .error _ => st

/-- One call to a mutating operation of the public StateManager API. -/
inductive MgrOp where
  | create (userId : String) (initialProblem : Option String) (now : Int)
  | delete (sessionId : Nat)
  | update (sessionId : Nat) (updates : SessionUpdate) (now : Int)
  | addCtx (sessionId : Nat) (data : ContextData) (now : Int)
  | metrics (sessionId : Nat) (m : MetricUpdate) (now : Int)
  | snapshot (sessionId : Nat) (now : Int)
  | rollback (snapshotId : Nat)
  | cleanup (maxInactiveMs : Int) (now : Int)
  | importOp (blob : ExportData)

/-- The state transition of one operation. -/
def stepOp (st : MgrState) : MgrOp → MgrState
  | .create userId initialProblem now => (createSession st userId initialProblem now).1
  | .delete sessionId => (deleteSession st sessionId).1
  | .update sessionId updates now => updateSessionState st sessionId updates now
  | .addCtx sessionId data now => addToContext st sessionId data now
  | .metrics sessionId m now => updateMetrics st sessionId m now
  | .snapshot sessionId now => createSnapshotState st sessionId now
  | .rollback snapshotId => rollbackState st snapshotId
  | .cleanup maxInactiveMs now => cleanupInactiveSessions st maxInactiveMs now |>.1
  | .importOp blob => importState st blob

/-- Run a call sequence left to right. -/
def runOps (st : MgrState) (ops : List MgrOp) : MgrState :=
  ops.foldl stepOp st

/-- Whether an operation is an `importSession` call. -/
def MgrOp.isImport : MgrOp → Prop
  | .importOp _ => True
  | _ => False

instance : DecidablePred MgrOp.isImport := by
  intro op
  cases op <;> simp [MgrOp.isImport] <;> infer_instance

/-! ## Well-formedness of reachable manager states

`importSession` installs blob contents verbatim, so an adversarial blob can
break these properties; every other operation preserves them, and the fresh
manager satisfies them. -/

/-- Every session-registry entry is keyed by its session's `id` (the code
only ever calls `sessions.set(session.id, session)` or re-inserts under the
key it read). -/
def KeysAreIds (st : MgrState) : Prop :=
  ∀ p ∈ st.sessions, p.2.id = p.1

/-- All registered session ids were produced by the freshness counter. -/
def SessionIdsBelow (st : MgrState) : Prop :=
  ∀ p ∈ st.sessions, p.2.id < st.nextId

/-- Captured snapshot states carry the id of the session entry they belong
to. -/
def SnapStatesMatch (st : MgrState) : Prop :=
  ∀ q ∈ st.snapshots, ∀ sn ∈ q.2, sn.state.id = q.1

/-- All snapshot-registry keys were produced by the freshness counter. -/
def SnapKeysBelow (st : MgrState) : Prop :=
  ∀ q ∈ st.snapshots, q.1 < st.nextId

/-- All snapshot ids were produced by the freshness counter. -/
def SnapIdsBelow (st : MgrState) : Prop :=
  ∀ q ∈ st.snapshots, ∀ sn ∈ q.2, sn.id < st.nextId

/-- Every snapshot-registry key has a live session (snapshots are created
only for existing sessions and deleted together with their session). -/
def SnapKeysLive (st : MgrState) : Prop :=
  ∀ q ∈ st.snapshots, (mapGet st.sessions q.1).isSome

/-- All well-formedness conditions of reachable (import-free) states. -/
def MgrWF (st : MgrState) : Prop :=
  KeysAreIds st ∧ SessionIdsBelow st ∧ SnapStatesMatch st ∧ SnapKeysBelow st ∧
    SnapIdsBelow st ∧ SnapKeysLive st

instance : DecidablePred MgrWF := by
  intro st
  unfold MgrWF KeysAreIds SessionIdsBelow SnapStatesMatch SnapKeysBelow
    SnapIdsBelow SnapKeysLive
  infer_instance

/-! ## Lemmas about the association-list `Map` model -/

theorem mapGet_mapSet_self {κ α : Type} [DecidableEq κ] (m : List (κ × α)) (k : κ)
    (v : α) : mapGet (mapSet m k v) k = some v := by
  induction m with
  | nil => simp [mapSet, mapGet]
  | cons p rest ih =>
    obtain ⟨k', v'⟩ := p
    by_cases h : k' = k
    · simp [mapSet, mapGet, h]
    · simp [mapSet, mapGet, h, ih]

theorem mapGet_mapSet_ne {κ α : Type} [DecidableEq κ] (m : List (κ × α)) (k k' : κ)
    (v : α) (h : k' ≠ k) : mapGet (mapSet m k v) k' = mapGet m k' := by
  induction m with
  | nil => simp [mapSet, mapGet, Ne.symm h]
  | cons p rest ih =>
    obtain ⟨k'', v''⟩ := p
    by_cases hk : k'' = k
    · subst hk
      simp [mapSet, mapGet, Ne.symm h]
    · simp only [mapSet, if_neg hk]
      by_cases hk' : k'' = k'
      · simp [mapGet, hk']
      · simp [mapGet, hk', ih]

theorem mapSet_length_le {κ α : Type} [DecidableEq κ] (m : List (κ × α)) (k : κ)
    (v : α) : (mapSet m k v).length ≤ m.length + 1 := by
  induction m with
  | nil => simp [mapSet]
  | cons p rest ih =>
    obtain ⟨k', v'⟩ := p
    by_cases h : k' = k
    · simp [mapSet, h]
    · simpa [mapSet, h] using Nat.succ_le_succ ih

theorem mapSet_length_of_isSome {κ α : Type} [DecidableEq κ] (m : List (κ × α))
    (k : κ) (v : α) (h : (mapGet m k).isSome) :
    (mapSet m k v).length = m.length := by
  induction m with
  | nil => simp [mapGet] at h
  | cons p rest ih =>
    obtain ⟨k', v'⟩ := p
    by_cases hk : k' = k
    · simp [mapSet, hk]
    · simp only [mapGet, if_neg hk] at h
      simp [mapSet, hk, ih h]

theorem mapDelete_length_le {κ α : Type} [DecidableEq κ] (m : List (κ × α))
    (k : κ) : (mapDelete m k).length ≤ m.length := by
  induction m with
  | nil => simp [mapDelete]
  | cons p rest ih =>
    obtain ⟨k', v'⟩ := p
    by_cases h : k' = k
    · simp only [mapDelete, if_pos h]
      exact ih.trans (Nat.le_succ _)
    · simpa [mapDelete, h] using Nat.succ_le_succ ih

theorem mapDelete_length_lt {κ α : Type} [DecidableEq κ] (m : List (κ × α))
    (k : κ) (h : (mapGet m k).isSome) :
    (mapDelete m k).length < m.length := by
  induction m with
  | nil => simp [mapGet] at h
  | cons p rest ih =>
    obtain ⟨k', v'⟩ := p
    by_cases hk : k' = k
    · simp only [mapDelete, if_pos hk]
      exact Nat.lt_succ_of_le (mapDelete_length_le rest k)
    · simp only [mapGet, if_neg hk] at h
      simpa [mapDelete, hk] using Nat.succ_lt_succ (ih h)

theorem mem_mapSet {κ α : Type} [DecidableEq κ] (m : List (κ × α)) (k : κ) (v : α)
    (p : κ × α) (h : p ∈ mapSet m k v) : p = (k, v) ∨ p ∈ m := by
  induction m with
  | nil => simpa [mapSet] using h
  | cons q rest ih =>
    obtain ⟨k', v'⟩ := q
    by_cases hk : k' = k
    · simp only [mapSet, if_pos hk] at h
      rcases List.mem_cons.mp h with h | h
      · exact Or.inl h
      · exact Or.inr (List.mem_cons_of_mem _ h)
    · simp only [mapSet, if_neg hk] at h
      rcases List.mem_cons.mp h with h | h
      · exact Or.inr (h ▸ List.mem_cons_self _ _)
      · rcases ih h with h | h
        · exact Or.inl h
        · exact Or.inr (List.mem_cons_of_mem _ h)

theorem mem_mapDelete {κ α : Type} [DecidableEq κ] (m : List (κ × α)) (k : κ)
    (p : κ × α) (h : p ∈ mapDelete m k) : p ∈ m := by
  induction m with
  | nil => simp [mapDelete] at h
  | cons q rest ih =>
    obtain ⟨k', v'⟩ := q
    by_cases hk : k' = k
    · simp only [mapDelete, if_pos hk] at h
      exact List.mem_cons_of_mem _ (ih h)
    · simp only [mapDelete, if_neg hk] at h
      rcases List.mem_cons.mp h with h | h
      · exact h ▸ List.mem_cons_self _ _
      · exact List.mem_cons_of_mem _ (ih h)

theorem mapGet_isSome_of_mem {κ α : Type} [DecidableEq κ] (m : List (κ × α))
    (k : κ) (v : α) (h : (k, v) ∈ m) : (mapGet m k).isSome := by
  induction m with
  | nil => simp at h
  | cons q rest ih =>
    obtain ⟨k', v'⟩ := q
    by_cases hk : k' = k
    · simp [mapGet, hk]
    · rcases List.mem_cons.mp h with h | h
      · exact absurd (congrArg Prod.fst h).symm hk
      · simpa [mapGet, hk] using ih h

theorem mapGet_mem {κ α : Type} [DecidableEq κ] (m : List (κ × α)) (k : κ) (v : α)
    (h : mapGet m k = some v) : (k, v) ∈ m := by
  induction m with
  | nil => simp [mapGet] at h
  | cons q rest ih =>
    obtain ⟨k', v'⟩ := q
    by_cases hk : k' = k
    · simp only [mapGet, if_pos hk] at h
      subst hk
      obtain rfl : v' = v := Option.some.inj h
      exact List.mem_cons_self _ _
    · simp only [mapGet, if_neg hk] at h
      exact List.mem_cons_of_mem _ (ih h)

/-! ## Lemmas about individual operations -/

theorem foldlOldest_spec (rest : List Session) (s : Session) :
    (rest.foldl
        (fun best x => if x.lastActivity < best.lastActivity then x else best) s)
      ∈ s :: rest ∧
    ∀ y ∈ s :: rest,
      (rest.foldl
          (fun best x => if x.lastActivity < best.lastActivity then x else best)
          s).lastActivity ≤ y.lastActivity := by
  induction rest generalizing s with
  | nil => simp
  | cons x rest ih =>
    simp only [List.foldl_cons]
    by_cases hx : x.lastActivity < s.lastActivity
    · rw [if_pos hx]
      obtain ⟨ihmem, ihle⟩ := ih x
      refine ⟨?_, ?_⟩
      · rcases List.mem_cons.mp ihmem with h | h
        · simp [h]
        · simp [h]
      · intro y hy
        rcases List.mem_cons.mp hy with rfl | hy
        · exact le_of_lt (lt_of_le_of_lt (ihle x (by simp)) hx)
        · exact ihle y hy
    · rw [if_neg hx]
      obtain ⟨ihmem, ihle⟩ := ih s
      refine ⟨?_, ?_⟩
      · rcases List.mem_cons.mp ihmem with h | h
        · simp [h]
        · exact List.mem_cons_of_mem _ (List.mem_cons_of_mem _ h)
      · intro y hy
        rcases List.mem_cons.mp hy with rfl | hy
        · exact ihle y (by simp)
        · rcases List.mem_cons.mp hy with rfl | hy'
          · exact le_trans (ihle s (by simp)) (not_lt.mp hx)
          · exact ihle y (by simp [hy'])

/-- The element `sort(...)[0]` picks is a member with minimal `lastActivity`. -/
theorem findOldestSession_spec (l : List Session) (m : Session)
    (h : findOldestSession l = some m) :
    m ∈ l ∧ ∀ s ∈ l, m.lastActivity ≤ s.lastActivity := by
  cases l with
  | nil => simp [findOldestSession] at h
  | cons s rest =>
    obtain rfl : _ = m := Option.some.inj h
    exact foldlOldest_spec rest s

/-- `findOldestSession` succeeds on a non-empty registry. -/
theorem findOldestSession_isSome (l : List Session) (h : l ≠ []) :
    (findOldestSession l).isSome := by
  cases l with
  | nil => exact absurd rfl h
  | cons s rest => simp [findOldestSession]

theorem addToContext_snapshots (st : MgrState) (sessionId : Nat) (data : ContextData)
    (now : Int) : (addToContext st sessionId data now).snapshots = st.snapshots := by
  unfold addToContext
  cases mapGet st.sessions sessionId
  · rfl
  · cases data <;> rfl

theorem addToContext_limits (st : MgrState) (sessionId : Nat) (data : ContextData)
    (now : Int) : (addToContext st sessionId data now).limits = st.limits := by
  unfold addToContext
  cases mapGet st.sessions sessionId
  · rfl
  · cases data <;> rfl

theorem addToContext_nextId (st : MgrState) (sessionId : Nat) (data : ContextData)
    (now : Int) : (addToContext st sessionId data now).nextId = st.nextId := by
  unfold addToContext
  cases mapGet st.sessions sessionId
  · rfl
  · cases data <;> rfl

theorem updateMetrics_snapshots (st : MgrState) (sessionId : Nat) (m : MetricUpdate)
    (now : Int) : (updateMetrics st sessionId m now).snapshots = st.snapshots := by
  unfold updateMetrics
  cases mapGet st.sessions sessionId
  · rfl
  · cases m <;> rfl

theorem updateMetrics_limits (st : MgrState) (sessionId : Nat) (m : MetricUpdate)
    (now : Int) : (updateMetrics st sessionId m now).limits = st.limits := by
  unfold updateMetrics
  cases mapGet st.sessions sessionId
  · rfl
  · cases m <;> rfl

theorem updateMetrics_nextId (st : MgrState) (sessionId : Nat) (m : MetricUpdate)
    (now : Int) : (updateMetrics st sessionId m now).nextId = st.nextId := by
  unfold updateMetrics
  cases mapGet st.sessions sessionId
  · rfl
  · cases m <;> rfl

theorem updateSessionState_snapshots (st : MgrState) (sessionId : Nat)
    (updates : SessionUpdate) (now : Int) :
    (updateSessionState st sessionId updates now).snapshots = st.snapshots := by
  unfold updateSessionState updateSession
  cases mapGet st.sessions sessionId <;> rfl

theorem updateSessionState_limits (st : MgrState) (sessionId : Nat)
    (updates : SessionUpdate) (now : Int) :
    (updateSessionState st sessionId updates now).limits = st.limits := by
  unfold updateSessionState updateSession
  cases mapGet st.sessions sessionId <;> rfl

theorem updateSessionState_nextId (st : MgrState) (sessionId : Nat)
    (updates : SessionUpdate) (now : Int) :
    (updateSessionState st sessionId updates now).nextId = st.nextId := by
  unfold updateSessionState updateSession
  cases mapGet st.sessions sessionId <;> rfl

theorem createSnapshotState_sessions (st : MgrState) (sessionId : Nat) (now : Int) :
    (createSnapshotState st sessionId now).sessions = st.sessions := by
  unfold createSnapshotState createSnapshot
  cases mapGet st.sessions sessionId <;> rfl

theorem createSnapshotState_limits (st : MgrState) (sessionId : Nat) (now : Int) :
    (createSnapshotState st sessionId now).limits = st.limits := by
  unfold createSnapshotState createSnapshot
  cases mapGet st.sessions sessionId <;> rfl

theorem mapGet_mapSet_isSome {κ α : Type} [DecidableEq κ] (m : List (κ × α))
    (k k' : κ) (v : α) (h : (mapGet m k').isSome) :
    (mapGet (mapSet m k v) k').isSome := by
  by_cases hk : k' = k
  · subst hk
    simp [mapGet_mapSet_self]
  · rwa [mapGet_mapSet_ne m k k' v hk]

theorem mem_mapDelete_ne {κ α : Type} [DecidableEq κ] (m : List (κ × α)) (k : κ)
    (p : κ × α) (h : p ∈ mapDelete m k) : p.1 ≠ k := by
  induction m with
  | nil => simp [mapDelete] at h
  | cons q rest ih =>
    obtain ⟨k', v'⟩ := q
    by_cases hk : k' = k
    · simp only [mapDelete, if_pos hk] at h
      exact ih h
    · simp only [mapDelete, if_neg hk] at h
      rcases List.mem_cons.mp h with h | h
      · subst h
        exact hk
      · exact ih h

theorem mapGet_mapDelete_ne {κ α : Type} [DecidableEq κ] (m : List (κ × α))
    (k k' : κ) (h : k' ≠ k) : mapGet (mapDelete m k) k' = mapGet m k' := by
  induction m with
  | nil => simp [mapDelete]
  | cons q rest ih =>
    obtain ⟨k'', v''⟩ := q
    by_cases hk : k'' = k
    · subst hk
      simp [mapDelete, mapGet, Ne.symm h, ih]
    · by_cases hk' : k'' = k'
      · simp [mapDelete, mapGet, hk, hk', h]
      · simp [mapDelete, mapGet, hk, hk', ih]

theorem mapGet_filter_isSome {κ α : Type} [DecidableEq κ] (m : List (κ × α))
    (f : κ × α → Bool) (k : κ) (h : (mapGet m k).isSome)
    (hall : ∀ p ∈ m, p.1 = k → f p) : (mapGet (m.filter f) k).isSome := by
  induction m with
  | nil => simp [mapGet] at h
  | cons q rest ih =>
    obtain ⟨k', v'⟩ := q
    by_cases hk : k' = k
    · subst hk
      have hf : f (k', v') := hall (k', v') (List.mem_cons_self _ _) rfl
      simp [List.filter_cons, hf, mapGet]
    · simp only [mapGet, if_neg hk] at h
      have ih' := ih h (fun p hp hpk => hall p (List.mem_cons_of_mem _ hp) hpk)
      cases hf : f (k', v') <;>
        simp [List.filter_cons, hf, mapGet, hk, ih']

/-- The scan of `rollbackToSnapshot` returns a registered entry key and a
member of that entry's snapshot list, whose id matches. -/
theorem findSnapshotEntry_mem (entries : List (Nat × List StateSnapshot))
    (snapshotId : Nat) (sessionId : Nat) (snapshot : StateSnapshot)
    (h : findSnapshotEntry entries snapshotId = some (sessionId, snapshot)) :
    ∃ snaps, (sessionId, snaps) ∈ entries ∧ snapshot ∈ snaps ∧
      snapshot.id = snapshotId := by
  induction entries with
  | nil => simp [findSnapshotEntry] at h
  | cons q rest ih =>
    obtain ⟨sid, snaps⟩ := q
    simp only [findSnapshotEntry] at h
    cases hfind : snaps.find? (fun s => s.id = snapshotId) with
    | some sn =>
      rw [hfind] at h
      obtain ⟨rfl, rfl⟩ : sid = sessionId ∧ sn = snapshot := by
        have := Option.some.inj h
        exact ⟨congrArg Prod.fst this, congrArg Prod.snd this⟩
      refine ⟨snaps, List.mem_cons_self _ _, List.mem_of_find?_eq_some hfind, ?_⟩
      have := List.find?_some hfind
      exact of_decide_eq_true this
    | none =>
      rw [hfind] at h
      obtain ⟨snaps', hmem, hsn, hid⟩ := ih h
      exact ⟨snaps', List.mem_cons_of_mem _ hmem, hsn, hid⟩

/-- `deepMergeSession` never changes the session id (the merge starts from
`{ ...target }` and only replaces the three nested objects). -/
theorem deepMergeSession_id (target : Session) (source : SessionUpdate) :
    (deepMergeSession target source).id = target.id := by
  unfold deepMergeSession
  cases source.context <;> cases source.metrics <;> cases source.preferences <;> rfl

/-! ## Well-formedness preservation -/

theorem wf_mapSet_session (st : MgrState) (sessionId : Nat) (s' : Session)
    (hid : s'.id = sessionId) (hlive : (mapGet st.sessions sessionId).isSome)
    (hwf : MgrWF st) :
    MgrWF { st with sessions := mapSet st.sessions sessionId s' } := by
  obtain ⟨h1, h2, h3, h4, h5, h6⟩ := hwf
  refine ⟨?_, ?_, h3, h4, h5, ?_⟩
  · intro p hp
    rcases mem_mapSet _ _ _ _ hp with rfl | hp
    · exact hid
    · exact h1 p hp
  · intro p hp
    rcases mem_mapSet _ _ _ _ hp with rfl | hp
    · obtain ⟨v, hv⟩ := Option.isSome_iff_exists.mp hlive
      have hmem := mapGet_mem _ _ _ hv
      have hvk := h1 _ hmem
      have hvlt := h2 _ hmem
      rw [hvk] at hvlt
      simpa [hid] using hvlt
    · exact h2 p hp
  · intro q hq
    exact mapGet_mapSet_isSome _ _ _ _ (h6 q hq)

theorem wf_deleteSession (st : MgrState) (sessionId : Nat) (hwf : MgrWF st) :
    MgrWF (deleteSession st sessionId).1 := by
  obtain ⟨h1, h2, h3, h4, h5, h6⟩ := hwf
  refine ⟨?_, ?_, ?_, ?_, ?_, ?_⟩
  · intro p hp
    exact h1 p (mem_mapDelete _ _ _ hp)
  · intro p hp
    exact h2 p (mem_mapDelete _ _ _ hp)
  · intro q hq
    exact h3 q (mem_mapDelete _ _ _ hq)
  · intro q hq
    exact h4 q (mem_mapDelete _ _ _ hq)
  · intro q hq
    exact h5 q (mem_mapDelete _ _ _ hq)
  · intro q hq
    have hne := mem_mapDelete_ne _ _ _ hq
    have hmem := mem_mapDelete _ _ _ hq
    show (mapGet (mapDelete st.sessions sessionId) q.1).isSome
    rw [mapGet_mapDelete_ne _ _ _ hne]
    exact h6 q hmem

theorem evictIfFull_wf (st : MgrState) (hwf : MgrWF st) : MgrWF (evictIfFull st) := by
  unfold evictIfFull
  split
  · cases findOldestSession (st.sessions.map Prod.snd) with
    | none => exact hwf
    | some oldest => exact wf_deleteSession st oldest.id hwf
  · exact hwf

theorem evictIfFull_limits (st : MgrState) : (evictIfFull st).limits = st.limits := by
  unfold evictIfFull
  split
  · cases findOldestSession (st.sessions.map Prod.snd) <;> rfl
  · rfl

theorem evictIfFull_nextId (st : MgrState) : (evictIfFull st).nextId = st.nextId := by
  unfold evictIfFull
  split
  · cases findOldestSession (st.sessions.map Prod.snd) <;> rfl
  · rfl

theorem wf_insert_fresh (st : MgrState) (s' : Session) (hid : s'.id = st.nextId)
    (hwf : MgrWF st) :
    MgrWF { st with sessions := mapSet st.sessions s'.id s',
                    nextId := st.nextId + 1 } := by
  obtain ⟨h1, h2, h3, h4, h5, h6⟩ := hwf
  refine ⟨?_, ?_, h3, ?_, ?_, ?_⟩
  · intro p hp
    rcases mem_mapSet _ _ _ _ hp with rfl | hp
    · rfl
    · exact h1 p hp
  · intro p hp
    rcases mem_mapSet _ _ _ _ hp with rfl | hp
    · simp [hid]
    · exact Nat.lt_trans (h2 p hp) (Nat.lt_succ_self _)
  · intro q hq
    exact Nat.lt_trans (h4 q hq) (Nat.lt_succ_self _)
  · intro q hq
    intro sn hsn
    exact Nat.lt_trans (h5 q hq sn hsn) (Nat.lt_succ_self _)
  · intro q hq
    exact mapGet_mapSet_isSome _ _ _ _ (h6 q hq)

theorem createSession_wf (st : MgrState) (userId : String)
    (initialProblem : Option String) (now : Int) (hwf : MgrWF st) :
    MgrWF (createSession st userId initialProblem now).1 :=
  wf_insert_fresh (evictIfFull st) _ rfl (evictIfFull_wf st hwf)

theorem updateSessionState_wf (st : MgrState) (sessionId : Nat)
    (updates : SessionUpdate) (now : Int) (hwf : MgrWF st) :
    MgrWF (updateSessionState st sessionId updates now) := by
  unfold updateSessionState updateSession
  cases hget : mapGet st.sessions sessionId with
  | none => exact hwf
  | some session =>
    have hsid : session.id = sessionId := hwf.1 _ (mapGet_mem _ _ _ hget)
    refine wf_mapSet_session st sessionId _ ?_ (by simp [hget]) hwf
    split
    · simpa [deepMergeSession_id] using hsid
    · simpa [deepMergeSession_id] using hsid

theorem addToContext_wf (st : MgrState) (sessionId : Nat) (data : ContextData)
    (now : Int) (hwf : MgrWF st) :
    MgrWF (addToContext st sessionId data now) := by
  unfold addToContext
  cases hget : mapGet st.sessions sessionId with
  | none => exact hwf
  | some session =>
    have hsid : session.id = sessionId := hwf.1 _ (mapGet_mem _ _ _ hget)
    cases data <;>
      exact wf_mapSet_session st sessionId _ hsid (by simp [hget]) hwf

theorem updateMetrics_wf (st : MgrState) (sessionId : Nat) (metric : MetricUpdate)
    (now : Int) (hwf : MgrWF st) :
    MgrWF (updateMetrics st sessionId metric now) := by
  unfold updateMetrics
  cases hget : mapGet st.sessions sessionId with
  | none => exact hwf
  | some session =>
    have hsid : session.id = sessionId := hwf.1 _ (mapGet_mem _ _ _ hget)
    cases metric <;>
      exact wf_mapSet_session st sessionId _ hsid (by simp [hget]) hwf

theorem wf_set_snapshots (st : MgrState) (sessionId : Nat) (L : List StateSnapshot)
    (hstates : ∀ sn ∈ L, sn.state.id = sessionId)
    (hids : ∀ sn ∈ L, sn.id < st.nextId + 1)
    (hlive : (mapGet st.sessions sessionId).isSome)
    (hkeylt : sessionId < st.nextId)
    (hwf : MgrWF st) :
    MgrWF { st with snapshots := mapSet st.snapshots sessionId L,
                    nextId := st.nextId + 1 } := by
  obtain ⟨h1, h2, h3, h4, h5, h6⟩ := hwf
  refine ⟨h1, ?_, ?_, ?_, ?_, ?_⟩
  · intro p hp
    exact Nat.lt_trans (h2 p hp) (Nat.lt_succ_self _)
  · intro q hq
    rcases mem_mapSet _ _ _ _ hq with rfl | hq'
    · exact hstates
    · exact h3 q hq'
  · intro q hq
    rcases mem_mapSet _ _ _ _ hq with rfl | hq'
    · exact Nat.lt_trans hkeylt (Nat.lt_succ_self _)
    · exact Nat.lt_trans (h4 q hq') (Nat.lt_succ_self _)
  · intro q hq
    rcases mem_mapSet _ _ _ _ hq with rfl | hq'
    · exact hids
    · intro sn hsn
      exact Nat.lt_trans (h5 q hq' sn hsn) (Nat.lt_succ_self _)
  · intro q hq
    rcases mem_mapSet _ _ _ _ hq with rfl | hq'
    · exact hlive
    · exact h6 q hq'

theorem createSnapshotState_wf (st : MgrState) (sessionId : Nat) (now : Int)
    (hwf : MgrWF st) : MgrWF (createSnapshotState st sessionId now) := by
  unfold createSnapshotState createSnapshot
  cases hget : mapGet st.sessions sessionId with
  | none => exact hwf
  | some session =>
    have hmem := mapGet_mem _ _ _ hget
    have hsid : session.id = sessionId := hwf.1 _ hmem
    have hkeylt : sessionId < st.nextId := by
      have := hwf.2.1 _ hmem
      rwa [hsid] at this
    refine wf_set_snapshots st sessionId _ ?_ ?_ (by simp [hget]) hkeylt hwf
    · intro sn hsn
      have hsn' : sn ∈ (mapGet st.snapshots sessionId).getD [] ++
          [({ id := st.nextId, sessionId := sessionId, timestamp := now,
              state := jsonCloneSession session,
              checksum := session } : StateSnapshot)] := by
        revert hsn
        split
        · exact fun hsn => List.mem_of_mem_drop hsn
        · exact fun hsn => hsn
      rcases List.mem_append.mp hsn' with h | h
      · cases hsget : mapGet st.snapshots sessionId with
        | none => rw [hsget] at h; simp at h
        | some L0 =>
          rw [hsget] at h
          exact hwf.2.2.1 _ (mapGet_mem _ _ _ hsget) sn h
      · rw [List.mem_singleton.mp h]
        exact hsid
    · intro sn hsn
      have hsn' : sn ∈ (mapGet st.snapshots sessionId).getD [] ++
          [({ id := st.nextId, sessionId := sessionId, timestamp := now,
              state := jsonCloneSession session,
              checksum := session } : StateSnapshot)] := by
        revert hsn
        split
        · exact fun hsn => List.mem_of_mem_drop hsn
        · exact fun hsn => hsn
      rcases List.mem_append.mp hsn' with h | h
      · cases hsget : mapGet st.snapshots sessionId with
        | none => rw [hsget] at h; simp at h
        | some L0 =>
          rw [hsget] at h
          exact Nat.lt_trans (hwf.2.2.2.2.1 _ (mapGet_mem _ _ _ hsget) sn h)
            (Nat.lt_succ_self _)
      · rw [List.mem_singleton.mp h]
        exact Nat.lt_succ_self _

theorem rollbackState_wf (st : MgrState) (snapshotId : Nat) (hwf : MgrWF st) :
    MgrWF (rollbackState st snapshotId) := by
  unfold rollbackState rollbackToSnapshot
  cases hfind : findSnapshotEntry st.snapshots snapshotId with
  | none => exact hwf
  | some pr =>
    obtain ⟨sessionId, snapshot⟩ := pr
    obtain ⟨snaps, hentry, hsnmem, _⟩ := findSnapshotEntry_mem _ _ _ _ hfind
    have hid : (jsonCloneSession snapshot.state).id = sessionId :=
      hwf.2.2.1 _ hentry _ hsnmem
    have hlive : (mapGet st.sessions sessionId).isSome := hwf.2.2.2.2.2 _ hentry
    exact wf_mapSet_session st sessionId _ hid hlive hwf

theorem cleanup_wf (st : MgrState) (maxInactiveMs : Int) (now : Int)
    (hwf : MgrWF st) : MgrWF (cleanupInactiveSessions st maxInactiveMs now).1 := by
  obtain ⟨h1, h2, h3, h4, h5, h6⟩ := hwf
  refine ⟨?_, ?_, ?_, ?_, ?_, ?_⟩
  · intro p hp
    exact h1 p (List.mem_of_mem_filter hp)
  · intro p hp
    exact h2 p (List.mem_of_mem_filter hp)
  · intro q hq
    exact h3 q (List.mem_of_mem_filter hq)
  · intro q hq
    exact h4 q (List.mem_of_mem_filter hq)
  · intro q hq
    exact h5 q (List.mem_of_mem_filter hq)
  · intro q hq
    have hqmem := (List.mem_filter.mp hq).1
    have hqkeep := (List.mem_filter.mp hq).2
    have hqnotin : q.1 ∉ (st.sessions.filter
        (fun p => decide (now - p.2.lastActivity > maxInactiveMs))).map Prod.fst := by
      simpa using hqkeep
    refine mapGet_filter_isSome _ _ _ (h6 q hqmem) ?_
    intro p hp hpk
    by_cases hcond : now - p.2.lastActivity > maxInactiveMs
    · exact absurd
        (List.mem_map.mpr ⟨p, List.mem_filter.mpr ⟨hp, decide_eq_true hcond⟩, hpk⟩)
        hqnotin
    · simp [decide_eq_false hcond]

/-! ## Session-count bounds -/

theorem createSession_count (st : MgrState) (userId : String)
    (initialProblem : Option String) (now : Int) (hwf : MgrWF st)
    (hc : st.sessions.length ≤ st.limits.maxSessions)
    (h1 : 1 ≤ st.limits.maxSessions) :
    (createSession st userId initialProblem now).1.sessions.length ≤
      st.limits.maxSessions := by
  have hlen : (createSession st userId initialProblem now).1.sessions.length ≤
      (evictIfFull st).sessions.length + 1 := mapSet_length_le _ _ _
  refine hlen.trans ?_
  unfold evictIfFull
  by_cases hcap : st.sessions.length ≥ st.limits.maxSessions
  · rw [if_pos hcap]
    have hne : st.sessions ≠ [] := by
      intro hnil
      rw [hnil] at hcap
      simp only [List.length_nil] at hcap
      omega
    have hsome := findOldestSession_isSome (st.sessions.map Prod.snd)
      (by simpa using hne)
    obtain ⟨oldest, hold⟩ := Option.isSome_iff_exists.mp hsome
    rw [hold]
    obtain ⟨hmem, _⟩ := findOldestSession_spec _ _ hold
    obtain ⟨p, hp, hpeq⟩ := List.mem_map.mp hmem
    have hkey : p.1 = oldest.id := by
      rw [← hpeq]
      exact (hwf.1 p hp).symm
    have hlive : (mapGet st.sessions oldest.id).isSome := by
      rw [← hkey]
      exact mapGet_isSome_of_mem st.sessions p.1 p.2 (by simpa using hp)
    have hdel := mapDelete_length_lt st.sessions oldest.id hlive
    exact hdel.trans_le hc
  · rw [if_neg hcap]
    omega

theorem updateSessionState_count (st : MgrState) (sessionId : Nat)
    (updates : SessionUpdate) (now : Int) :
    (updateSessionState st sessionId updates now).sessions.length =
      st.sessions.length := by
  unfold updateSessionState updateSession
  cases hget : mapGet st.sessions sessionId with
  | none => rfl
  | some session => exact mapSet_length_of_isSome _ _ _ (by simp [hget])

theorem addToContext_count (st : MgrState) (sessionId : Nat) (data : ContextData)
    (now : Int) :
    (addToContext st sessionId data now).sessions.length = st.sessions.length := by
  unfold addToContext
  cases hget : mapGet st.sessions sessionId with
  | none => rfl
  | some session =>
    cases data <;> exact mapSet_length_of_isSome _ _ _ (by simp [hget])

theorem updateMetrics_count (st : MgrState) (sessionId : Nat) (metric : MetricUpdate)
    (now : Int) :
    (updateMetrics st sessionId metric now).sessions.length = st.sessions.length := by
  unfold updateMetrics
  cases hget : mapGet st.sessions sessionId with
  | none => rfl
  | some session =>
    cases metric <;> exact mapSet_length_of_isSome _ _ _ (by simp [hget])

theorem rollbackState_count (st : MgrState) (snapshotId : Nat) (hwf : MgrWF st) :
    (rollbackState st snapshotId).sessions.length = st.sessions.length := by
  unfold rollbackState rollbackToSnapshot
  cases hfind : findSnapshotEntry st.snapshots snapshotId with
  | none => rfl
  | some pr =>
    obtain ⟨sessionId, snapshot⟩ := pr
    obtain ⟨snaps, hentry, _, _⟩ := findSnapshotEntry_mem _ _ _ _ hfind
    exact mapSet_length_of_isSome _ _ _ (hwf.2.2.2.2.2 _ hentry)

theorem rollbackState_limits (st : MgrState) (snapshotId : Nat) :
    (rollbackState st snapshotId).limits = st.limits := by
  unfold rollbackState rollbackToSnapshot
  cases hfind : findSnapshotEntry st.snapshots snapshotId with
  | none => rfl
  | some pr =>
    obtain ⟨sessionId, snapshot⟩ := pr
    rfl

theorem importState_limits (st : MgrState) (blob : ExportData) :
    (importState st blob).limits = st.limits := by
  unfold importState importSession
  by_cases hv : blob.version = ""
  · rw [if_pos hv]
  · rw [if_neg hv]

/-! ## Invariant preservation under one operation and under runs -/

theorem stepOp_limits (st : MgrState) (op : MgrOp) :
    (stepOp st op).limits = st.limits := by
  cases op with
  | create userId initialProblem now => exact evictIfFull_limits st
  | delete sessionId => rfl
  | update sessionId updates now => exact updateSessionState_limits st sessionId updates now
  | addCtx sessionId data now => exact addToContext_limits st sessionId data now
  | metrics sessionId m now => exact updateMetrics_limits st sessionId m now
  | snapshot sessionId now => exact createSnapshotState_limits st sessionId now
  | rollback snapshotId => exact rollbackState_limits st snapshotId
  | cleanup maxInactiveMs now => rfl
  | importOp blob => exact importState_limits st blob

theorem stepOp_wf (st : MgrState) (op : MgrOp) (hni : ¬ op.isImport)
    (hwf : MgrWF st) : MgrWF (stepOp st op) := by
  cases op with
  | create userId initialProblem now =>
    exact createSession_wf st userId initialProblem now hwf
  | delete sessionId => exact wf_deleteSession st sessionId hwf
  | update sessionId updates now =>
    exact updateSessionState_wf st sessionId updates now hwf
  | addCtx sessionId data now => exact addToContext_wf st sessionId data now hwf
  | metrics sessionId m now => exact updateMetrics_wf st sessionId m now hwf
  | snapshot sessionId now => exact createSnapshotState_wf st sessionId now hwf
  | rollback snapshotId => exact rollbackState_wf st snapshotId hwf
  | cleanup maxInactiveMs now => exact cleanup_wf st maxInactiveMs now hwf
  | importOp blob => exact absurd trivial hni

theorem stepOp_count (st : MgrState) (op : MgrOp) (hni : ¬ op.isImport)
    (hwf : MgrWF st) (hc : st.sessions.length ≤ st.limits.maxSessions)
    (h1 : 1 ≤ st.limits.maxSessions) :
    (stepOp st op).sessions.length ≤ st.limits.maxSessions := by
  cases op with
  | create userId initialProblem now =>
    exact createSession_count st userId initialProblem now hwf hc h1
  | delete sessionId => exact (mapDelete_length_le _ _).trans hc
  | update sessionId updates now =>
    rw [show (stepOp st (.update sessionId updates now)).sessions.length =
      st.sessions.length from updateSessionState_count st sessionId updates now]
    exact hc
  | addCtx sessionId data now =>
    rw [show (stepOp st (.addCtx sessionId data now)).sessions.length =
      st.sessions.length from addToContext_count st sessionId data now]
    exact hc
  | metrics sessionId m now =>
    rw [show (stepOp st (.metrics sessionId m now)).sessions.length =
      st.sessions.length from updateMetrics_count st sessionId m now]
    exact hc
  | snapshot sessionId now =>
    rw [show (stepOp st (.snapshot sessionId now)).sessions =
      st.sessions from createSnapshotState_sessions st sessionId now]
    exact hc
  | rollback snapshotId =>
    rw [show (stepOp st (.rollback snapshotId)).sessions.length =
      st.sessions.length from rollbackState_count st snapshotId hwf]
    exact hc
  | cleanup maxInactiveMs now => exact (List.length_filter_le _ _).trans hc
  | importOp blob => exact absurd trivial hni

theorem runOps_inv (ops : List MgrOp) (st : MgrState)
    (hni : ∀ op ∈ ops, ¬ op.isImport) (hwf : MgrWF st)
    (hc : st.sessions.length ≤ st.limits.maxSessions)
    (h1 : 1 ≤ st.limits.maxSessions) :
    MgrWF (runOps st ops) ∧
    (runOps st ops).sessions.length ≤ st.limits.maxSessions ∧
    (runOps st ops).limits = st.limits := by
  induction ops generalizing st with
  | nil => exact ⟨hwf, hc, rfl⟩
  | cons op rest ih =>
    have hop := hni op (List.mem_cons_self _ _)
    have hwf' := stepOp_wf st op hop hwf
    have hlim := stepOp_limits st op
    have hc' : (stepOp st op).sessions.length ≤ (stepOp st op).limits.maxSessions := by
      rw [hlim]
      exact stepOp_count st op hop hwf hc h1
    have h1' : 1 ≤ (stepOp st op).limits.maxSessions := by
      rw [hlim]
      exact h1
    obtain ⟨w, c, l⟩ :=
      ih (stepOp st op) (fun o ho => hni o (List.mem_cons_of_mem _ ho)) hwf' hc' h1'
    refine ⟨w, ?_, ?_⟩
    · have : (runOps (stepOp st op) rest).sessions.length ≤
          (stepOp st op).limits.maxSessions := c
      rwa [hlim] at this
    · calc (runOps st (op :: rest)).limits = (stepOp st op).limits := l
        _ = st.limits := hlim

/-! ## Claim C5 -/

/-- A snapshot id absent from the whole registry is not found by the scan. -/
theorem findSnapshotEntry_eq_none (entries : List (Nat × List StateSnapshot))
    (snapshotId : Nat) (h : ∀ q ∈ entries, ∀ sn ∈ q.2, sn.id ≠ snapshotId) :
    findSnapshotEntry entries snapshotId = none := by
  induction entries with
  | nil => rfl
  | cons q rest ih =>
    obtain ⟨sid, snaps⟩ := q
    have hfind : snaps.find? (fun s => s.id = snapshotId) = none := by
      rw [List.find?_eq_none]
      intro sn hsn
      simpa using h (sid, snaps) (List.mem_cons_self _ _) sn hsn
    simp only [findSnapshotEntry, hfind]
    exact ih fun q hq => h q (List.mem_cons_of_mem _ hq)

/-- C5: for an id not present in the session registry, `updateSession`,
`createSnapshot` and `exportSession` raise a not-found error, and
`rollbackToSnapshot` raises not-found for a snapshot id absent from the whole
snapshot registry, while `addToContext` and `updateMetrics` return silently,
leaving the entire state (every session and snapshot) unchanged. -/
theorem C5_notfound_asymmetry (st : MgrState) (sessionId snapshotId : Nat)
    (updates : SessionUpdate) (data : ContextData) (metric : MetricUpdate)
    (now : Int)
    (hsess : mapGet st.sessions sessionId = none)
    (hsnap : ∀ q ∈ st.snapshots, ∀ sn ∈ q.2, sn.id ≠ snapshotId) :
    updateSession st sessionId updates now = .error (.sessionNotFound sessionId) ∧
    createSnapshot st sessionId now = .error (.sessionNotFound sessionId) ∧
    exportSession st sessionId now = .error (.sessionNotFound sessionId) ∧
    rollbackToSnapshot st snapshotId = .error (.snapshotNotFound snapshotId) ∧
    addToContext st sessionId data now = st ∧
    updateMetrics st sessionId metric now = st := by
  refine ⟨?_, ?_, ?_, ?_, ?_, ?_⟩
  · unfold updateSession
    rw [hsess]
  · unfold createSnapshot
    rw [hsess]
  · unfold exportSession
    rw [hsess]
  · unfold rollbackToSnapshot
    rw [findSnapshotEntry_eq_none st.snapshots snapshotId hsnap]
  · unfold addToContext
    rw [hsess]
  · unfold updateMetrics
    rw [hsess]

/-- C5 witness: a fresh manager with no session `7` and no snapshot `9`. -/
theorem C5_witness :
    (mapGet (initialState defaultLimits).sessions 7 = none) ∧
    (∀ q ∈ (initialState defaultLimits).snapshots, ∀ sn ∈ q.2, sn.id ≠ 9) ∧
    (updateSession (initialState defaultLimits) 7 ⟨none, none, none⟩ 0 =
        .error (.sessionNotFound 7) ∧
      createSnapshot (initialState defaultLimits) 7 0 =
        .error (.sessionNotFound 7) ∧
      exportSession (initialState defaultLimits) 7 0 =
        .error (.sessionNotFound 7) ∧
      rollbackToSnapshot (initialState defaultLimits) 9 =
        .error (.snapshotNotFound 9) ∧
      addToContext (initialState defaultLimits) 7 (.lens "p" none) 0 =
        initialState defaultLimits ∧
      updateMetrics (initialState defaultLimits) 7 .totalGenerations 0 =
        initialState defaultLimits) :=
  ⟨rfl, by simp [initialState],
    C5_notfound_asymmetry (initialState defaultLimits) 7 9 ⟨none, none, none⟩
      (.lens "p" none) .totalGenerations 0 rfl (by simp [initialState])⟩

/-! ## Claim C9 -/

/-- C9: `calculateSessionHealth` starts at 100, subtracts the fixed penalty of
each triggered condition (10 for a context serialized above 50KB, 20 for more
than 30 minutes of inactivity, 15 for fewer than 5 unique domains), floors at
0, and pushes exactly one issue per triggered condition; hence the score lies
in [0, 100] and the issue list is empty exactly when the score is 100. -/
theorem C9_health (session : Session) (now : Int) :
    (calculateSessionHealth session now).score =
      max 0 (100
        - (if contextSize session.context > 50 * 1024 then (10 : Int) else 0)
        - (if now - session.lastActivity > 30 * 60 * 1000 then (20 : Int) else 0)
        - (if session.metrics.uniqueDomainsUsed.length < 5 then (15 : Int) else 0)) ∧
    0 ≤ (calculateSessionHealth session now).score ∧
    (calculateSessionHealth session now).score ≤ 100 ∧
    (calculateSessionHealth session now).issues.length =
      ((if contextSize session.context > 50 * 1024 then 1 else 0)
        + (if now - session.lastActivity > 30 * 60 * 1000 then 1 else 0)
        + (if session.metrics.uniqueDomainsUsed.length < 5 then 1 else 0)) ∧
    ((calculateSessionHealth session now).issues = [] ↔
      (calculateSessionHealth session now).score = 100) := by
  unfold calculateSessionHealth
  dsimp only
  split_ifs <;> decide

/-! ## Claim C10 -/

/-- C10: on the memory backend with compression off, `load` after `save`
returns the JSON round trip of the saved value — the identity on plain JSON
data, but any `Set` or `Map` inside collapses to an empty object — and `load`
of a key never saved returns `null` (saving one key does not affect others,
and the fresh store is empty). -/
theorem C10_memory_roundtrip :
    (∀ (store : MemoryStore) (k : String) (v : JsValue),
        memLoad (memSave store k v) k = some (jsonRoundTrip v)) ∧
    (∀ (store : MemoryStore) (k k' : String) (v : JsValue), k' ≠ k →
        memLoad (memSave store k v) k' = memLoad store k') ∧
    (∀ k : String, memLoad [] k = none) ∧
    (∀ xs : List JsValue, jsonRoundTrip (.set xs) = .obj []) ∧
    (∀ kvs : List (JsValue × JsValue), jsonRoundTrip (.map kvs) = .obj []) ∧
    jsonRoundTrip (.set [.str "domain"]) ≠ .set [.str "domain"] := by
  refine ⟨?_, ?_, ?_, ?_, ?_, ?_⟩
  · intro store k v
    exact mapGet_mapSet_self store k (jsonRoundTrip v)
  · intro store k k' v h
    exact mapGet_mapSet_ne store k k' (jsonRoundTrip v) h
  · intro k
    rfl
  · intro xs
    rfl
  · intro kvs
    rfl
  · intro h
    exact JsValue.noConfusion h

/-- C10 witness: saving under `"state"` does not create `"other"`, on a
concrete store. -/
theorem C10_witness :
    ("other" : String) ≠ "state" ∧
    memLoad (memSave [] "state" (.set [.str "domain"])) "other" =
      memLoad [] "other" :=
  ⟨by decide,
    C10_memory_roundtrip.2.1 [] "state" "other" (.set [.str "domain"]) (by decide)⟩

/-! ## Claim C8 -/

/-- C8: `updateMetrics(id, 'madnessIndex', v)` replaces `averageMadnessIndex`
by `(oldAverage × (n − 1) + v) / n` where `n` is the current
`totalGenerations`, taken as 1 when `totalGenerations` is 0 (the JS `|| 1`);
everything else in the session except `lastActivity` is unchanged. -/
theorem C8_madness_mean (st : MgrState) (sessionId : Nat) (sess : Session)
    (v : ℚ) (now : Int) (hget : mapGet st.sessions sessionId = some sess) :
    mapGet (updateMetrics st sessionId (.madnessIndex v) now).sessions sessionId =
      some { sess with
        lastActivity := now,
        metrics := { sess.metrics with averageMadnessIndex :=
          (sess.metrics.averageMadnessIndex *
              (((if sess.metrics.totalGenerations = 0 then 1
                 else sess.metrics.totalGenerations : Nat) : ℚ) - 1) + v) /
            ((if sess.metrics.totalGenerations = 0 then 1
              else sess.metrics.totalGenerations : Nat) : ℚ) } } := by
  unfold updateMetrics
  rw [hget]
  exact mapGet_mapSet_self _ _ _

/-- The state after the first three calls of the C8 scenario on a fresh
session for user `"u1"` with problem `"test"`:
`totalGenerations`, `madnessIndex 4`, `totalGenerations`. -/
def c8State3 : MgrState :=
  updateMetrics
    (updateMetrics
      (updateMetrics
        (createSession (initialState defaultLimits) "u1" (some "test") 0).1
        0 .totalGenerations 0)
      0 (.madnessIndex 4) 0)
    0 .totalGenerations 0

/-- The session stored in `c8State3`. -/
def c8Session3 : Session :=
  (mapGet c8State3.sessions 0).getD default

/-- C8 witness: the scenario's fourth call `madnessIndex 6` applied through
the theorem, and the resulting running mean is exactly 5. -/
theorem C8_witness :
    mapGet c8State3.sessions 0 = some c8Session3 ∧
    mapGet (updateMetrics c8State3 0 (.madnessIndex 6) 0).sessions 0 =
      some { c8Session3 with
        lastActivity := 0,
        metrics := { c8Session3.metrics with averageMadnessIndex :=
          (c8Session3.metrics.averageMadnessIndex *
              (((if c8Session3.metrics.totalGenerations = 0 then 1
                 else c8Session3.metrics.totalGenerations : Nat) : ℚ) - 1) + 6) /
            ((if c8Session3.metrics.totalGenerations = 0 then 1
              else c8Session3.metrics.totalGenerations : Nat) : ℚ) } } ∧
    (mapGet (updateMetrics c8State3 0 (.madnessIndex 6) 0).sessions 0).map
      (fun s => s.metrics.averageMadnessIndex) = some 5 :=
  ⟨rfl, C8_madness_mean c8State3 0 c8Session3 6 0 rfl, by
    have hexp : (mapGet (updateMetrics c8State3 0 (.madnessIndex 6) 0).sessions 0).map
        (fun s => s.metrics.averageMadnessIndex) =
        some ((((0 : ℚ) * ((((1:ℕ):ℚ)) - 1) + 4) / (((1:ℕ)):ℚ) * ((((2:ℕ)):ℚ) - 1) + 6) /
          (((2:ℕ)):ℚ)) := rfl
    rw [hexp]
    norm_num⟩

/-! ## Claim C2 -/

/-- C2 (amended): the context-size bound is enforced by `updateSession` on
each of its calls — whenever the merged context's serialized size exceeds
`maxContextSize`, the stored context is the `trimContext` result, otherwise
the merged context itself — but `addToContext` performs no size enforcement
whatsoever: its result does not depend on the configured limits at all. -/
theorem C2_size_enforcement :
    (∀ (st : MgrState) (sessionId : Nat) (updates : SessionUpdate) (now : Int)
        (session : Session), mapGet st.sessions sessionId = some session →
      ∃ s', mapGet (updateSessionState st sessionId updates now).sessions sessionId
          = some s' ∧
        (contextSize (deepMergeSession session updates).context >
            st.limits.maxContextSize →
          s'.context = trimContext (deepMergeSession session updates).context
            st.limits.maxContextSize) ∧
        (¬ contextSize (deepMergeSession session updates).context >
            st.limits.maxContextSize →
          s'.context = (deepMergeSession session updates).context)) ∧
    (∀ (st : MgrState) (sessionId : Nat) (data : ContextData) (now : Int)
        (limits' : StateManagerLimits),
      addToContext { st with limits := limits' } sessionId data now =
        { addToContext st sessionId data now with limits := limits' }) := by
  constructor
  · intro st sessionId updates now session hget
    unfold updateSessionState updateSession
    rw [hget]
    dsimp only
    by_cases hsz : contextSize (deepMergeSession session updates).context >
        st.limits.maxContextSize
    · rw [if_pos hsz, mapGet_mapSet_self]
      exact ⟨_, rfl, fun _ => rfl, fun h => absurd hsz h⟩
    · rw [if_neg hsz, mapGet_mapSet_self]
      exact ⟨_, rfl, fun h => absurd h hsz, fun _ => rfl⟩
  · intro st sessionId data now limits'
    unfold addToContext
    dsimp only
    cases mapGet st.sessions sessionId
    · rfl
    · cases data <;> rfl

/-- Limits with a 100-byte `maxContextSize` (the constructor merges
caller-supplied limits over `STATE_CONFIG`). -/
def c2Limits : StateManagerLimits := { defaultLimits with maxContextSize := 100 }

/-- A manager with one freshly created session under the 100-byte limit. -/
def c2State : MgrState := (createSession (initialState c2Limits) "u" none 0).1

/-- A lens artifact whose prompt alone serializes past the limit. -/
def c2Data : ContextData :=
  .lens "xxxxxxxxxxxxxxxxxxxxxxxxxxxxxxxxxxxxxxxxxxxxxxxxxx" none

/-- C2 counterexample: the fresh session's context satisfies the bound, but
after one `addToContext` call its serialized size exceeds `maxContextSize` —
no trimming is applied by `addToContext`. -/
theorem C2_counterexample :
    contextSize ((mapGet c2State.sessions 0).getD default).context ≤
      c2State.limits.maxContextSize ∧
    contextSize
        ((mapGet (addToContext c2State 0 c2Data 1).sessions 0).getD default).context >
      (addToContext c2State 0 c2Data 1).limits.maxContextSize := by
  constructor
  · decide
  · decide

/-- C2 witness: the enforcement clause applied to the concrete session of
`c2State` with an empty update. -/
theorem C2_witness :
    mapGet c2State.sessions 0 = some ((mapGet c2State.sessions 0).getD default) ∧
    (∃ s', mapGet (updateSessionState c2State 0 ⟨none, none, none⟩ 1).sessions 0
        = some s' ∧
      (contextSize (deepMergeSession ((mapGet c2State.sessions 0).getD default)
            ⟨none, none, none⟩).context > c2State.limits.maxContextSize →
        s'.context = trimContext
          (deepMergeSession ((mapGet c2State.sessions 0).getD default)
            ⟨none, none, none⟩).context c2State.limits.maxContextSize) ∧
      (¬ contextSize (deepMergeSession ((mapGet c2State.sessions 0).getD default)
            ⟨none, none, none⟩).context > c2State.limits.maxContextSize →
        s'.context = (deepMergeSession ((mapGet c2State.sessions 0).getD default)
          ⟨none, none, none⟩).context)) :=
  ⟨rfl, C2_size_enforcement.1 c2State 0 ⟨none, none, none⟩ 1
    ((mapGet c2State.sessions 0).getD default) rfl⟩

/-! ## Claim C6 -/

/-- `trimArray` always returns a suffix of its input (possibly the whole
input). -/
theorem trimArray_drop {α : Type} (array : List α) (maxLength : Nat) :
    ∃ k, trimArray array maxLength = array.drop k := by
  unfold trimArray
  split
  · exact ⟨0, rfl⟩
  · split
    · exact ⟨0, rfl⟩
    · exact ⟨array.length - maxLength, rfl⟩

/-- For a positive requested length, `trimArray` keeps exactly
`min length maxLength` elements. -/
theorem trimArray_length_min {α : Type} (array : List α) (maxLength : Nat)
    (h : 1 ≤ maxLength) :
    (trimArray array maxLength).length = min array.length maxLength := by
  unfold trimArray
  split
  · rename_i hle
    rw [Nat.min_eq_left hle]
  · split
    · omega
    · rename_i hgt h0
      rw [List.length_drop]
      omega

/-- The negative-zero quirk: `array.slice(-0)` is the whole array, so a
requested length of 0 keeps everything. -/
theorem trimArray_zero_keeps {α : Type} (array : List α) :
    trimArray array 0 = array := by
  unfold trimArray
  split
  · rfl
  · rw [if_pos rfl]

/-- C6 (amended): `trimContext` returns the context unchanged when its
serialized size is within `maxBytes`; otherwise it truncates each
sub-collection to a suffix (so no element count ever increases and the kept
elements are the most recently appended ones), using the shared reduction
factor `maxBytes / totalSize` over the summed serialized sizes of the three
sub-collections; each sub-collection is cut to `floor(length × factor)`
entries whenever that target is at least 1, but when the target is 0 the
`slice(-0)` quirk keeps the whole sub-collection instead of emptying it. -/
theorem C6_trimContext (context : SessionContext) (maxSize : Nat) :
    (contextSize context ≤ maxSize → trimContext context maxSize = context) ∧
    (∃ k, (trimContext context maxSize).generatedLenses =
        context.generatedLenses.drop k) ∧
    (∃ k, (trimContext context maxSize).evolutionChains =
        context.evolutionChains.drop k) ∧
    (∃ k, (trimContext context maxSize).hybridAttempts =
        context.hybridAttempts.drop k) ∧
    (contextSize context > maxSize →
      ((1 ≤ context.generatedLenses.length * maxSize / trimTotalSize context →
          (trimContext context maxSize).generatedLenses.length =
            min context.generatedLenses.length
              (context.generatedLenses.length * maxSize / trimTotalSize context)) ∧
        (context.generatedLenses.length * maxSize / trimTotalSize context = 0 →
          (trimContext context maxSize).generatedLenses =
            context.generatedLenses)) ∧
      ((1 ≤ context.evolutionChains.length * maxSize / trimTotalSize context →
          (trimContext context maxSize).evolutionChains.length =
            min context.evolutionChains.length
              (context.evolutionChains.length * maxSize / trimTotalSize context)) ∧
        (context.evolutionChains.length * maxSize / trimTotalSize context = 0 →
          (trimContext context maxSize).evolutionChains =
            context.evolutionChains)) ∧
      ((1 ≤ context.hybridAttempts.length * maxSize / trimTotalSize context →
          (trimContext context maxSize).hybridAttempts.length =
            min context.hybridAttempts.length
              (context.hybridAttempts.length * maxSize / trimTotalSize context)) ∧
        (context.hybridAttempts.length * maxSize / trimTotalSize context = 0 →
          (trimContext context maxSize).hybridAttempts =
            context.hybridAttempts))) := by
  by_cases hle : contextSize context ≤ maxSize
  · have heq : trimContext context maxSize = context := by
      unfold trimContext
      rw [if_pos hle]
    rw [heq]
    exact ⟨fun _ => rfl, ⟨0, rfl⟩, ⟨0, rfl⟩, ⟨0, rfl⟩,
      fun hgt => absurd hle (not_le.mpr hgt)⟩
  · have heq : trimContext context maxSize =
        { currentProblem := context.currentProblem,
          generatedLenses := trimArray context.generatedLenses
            (context.generatedLenses.length * maxSize / trimTotalSize context),
          evolutionChains := trimArray context.evolutionChains
            (context.evolutionChains.length * maxSize / trimTotalSize context),
          hybridAttempts := trimArray context.hybridAttempts
            (context.hybridAttempts.length * maxSize / trimTotalSize context) } := by
      unfold trimContext
      rw [if_neg hle]
    rw [heq]
    refine ⟨fun h => absurd h hle, trimArray_drop _ _, trimArray_drop _ _,
      trimArray_drop _ _, fun _ => ⟨⟨?_, ?_⟩, ⟨?_, ?_⟩, ⟨?_, ?_⟩⟩⟩
    · exact fun h1 => trimArray_length_min _ _ h1
    · intro h0
      rw [h0]
      exact trimArray_zero_keeps _
    · exact fun h1 => trimArray_length_min _ _ h1
    · intro h0
      rw [h0]
      exact trimArray_zero_keeps _
    · exact fun h1 => trimArray_length_min _ _ h1
    · intro h0
      rw [h0]
      exact trimArray_zero_keeps _

/-- A context with one large lens entry: its serialized size exceeds 130
bytes, and the proportional target length for the lens list floors to 0. -/
def c6Lens : Lens :=
  { timestamp := 0
    prompt := "xxxxxxxxxxxxxxxxxxxxxxxxxxxxxxxxxxxxxxxxxxxxxxxxxxxxxxxxxxxxxxxxxxxxxxxxxxxxxxxxxxxxxxxxxxxxxxxxxxxx"
    domains := [] }

def c6Ctx : SessionContext :=
  { currentProblem := "p", generatedLenses := [c6Lens],
    evolutionChains := [], hybridAttempts := [] }

/-- C6 counterexample: the claim says the lens list is truncated to
`floor(length × maxBytes / totalSize) = 0` entries, but `trimContext` keeps
the single entry (negative-zero slice). -/
theorem C6_counterexample :
    contextSize c6Ctx > 130 ∧
    c6Ctx.generatedLenses.length * 130 / trimTotalSize c6Ctx = 0 ∧
    (trimContext c6Ctx 130).generatedLenses.length = 1 ∧
    (trimContext c6Ctx 130).generatedLenses.length ≠
      c6Ctx.generatedLenses.length * 130 / trimTotalSize c6Ctx := by
  refine ⟨by decide, by decide, by decide, by decide⟩

/-- C6 witness: the positive-target clause applied to `c6Ctx` at 150 bytes. -/
theorem C6_witness :
    contextSize c6Ctx > 150 ∧
    1 ≤ c6Ctx.generatedLenses.length * 150 / trimTotalSize c6Ctx ∧
    (trimContext c6Ctx 150).generatedLenses.length =
      min c6Ctx.generatedLenses.length
        (c6Ctx.generatedLenses.length * 150 / trimTotalSize c6Ctx) :=
  ⟨by decide, by decide,
    ((C6_trimContext c6Ctx 150).2.2.2.2 (by decide)).1.1 (by decide)⟩

/-! ## Claim C4 -/

/-- `createSnapshot` called `n` times in a row on the same session. -/
def iterSnapshots (st : MgrState) (sessionId : Nat) (now : Int) : Nat → MgrState
  | 0 => st
  | n + 1 => createSnapshotState (iterSnapshots st sessionId now n) sessionId now

/-- The snapshot captured by the call made when the freshness counter holds
`i`. -/
def mkSnapAt (sess : Session) (sessionId : Nat) (now : Int) (i : Nat) : StateSnapshot :=
  { id := i, sessionId := sessionId, timestamp := now,
    state := jsonCloneSession sess, checksum := sess }

/-- One `createSnapshot` call: sessions and limits untouched, counter bumped,
and the session's snapshot list gets the fresh snapshot appended, shifting
the oldest entry off when the list has outgrown `maxSnapshots`. -/
theorem createSnapshotState_step (st : MgrState) (sessionId : Nat) (now : Int)
    (sess : Session) (hget : mapGet st.sessions sessionId = some sess) :
    (createSnapshotState st sessionId now).sessions = st.sessions ∧
    (createSnapshotState st sessionId now).limits = st.limits ∧
    (createSnapshotState st sessionId now).nextId = st.nextId + 1 ∧
    listSnapshots (createSnapshotState st sessionId now) sessionId =
      (if (listSnapshots st sessionId ++ [mkSnapAt sess sessionId now st.nextId]).length >
          st.limits.maxSnapshots then
        (listSnapshots st sessionId ++ [mkSnapAt sess sessionId now st.nextId]).drop 1
      else listSnapshots st sessionId ++ [mkSnapAt sess sessionId now st.nextId]) := by
  unfold createSnapshotState createSnapshot
  rw [hget]
  refine ⟨rfl, rfl, rfl, ?_⟩
  unfold listSnapshots
  dsimp only
  rw [mapGet_mapSet_self]
  rfl

/-- List form of the bounded push: appending the `j`-th element to the
current window and shifting once when over capacity yields the window of the
first `j + 1` elements. -/
theorem windowPush {α : Type} (f : Nat → α) (j M : Nat) :
    (if (((List.range j).map f).drop (j - M) ++ [f j]).length > M then
        (((List.range j).map f).drop (j - M) ++ [f j]).drop 1
      else ((List.range j).map f).drop (j - M) ++ [f j]) =
    ((List.range (j + 1)).map f).drop (j + 1 - M) := by
  have hr : (List.range (j + 1)).map f = (List.range j).map f ++ [f j] := by
    rw [List.range_succ, List.map_append]
    rfl
  have hlen : (((List.range j).map f).drop (j - M)).length = j - (j - M) := by
    simp [List.length_drop]
  by_cases hj : j < M
  · have h1 : j - M = 0 := by omega
    have h2 : j + 1 - M = 0 := by omega
    have hc : ¬ ((((List.range j).map f).drop (j - M) ++ [f j]).length > M) := by
      rw [List.length_append, hlen, h1]
      simp only [List.length_singleton]
      omega
    rw [if_neg hc, h2, List.drop_zero, hr, h1, List.drop_zero]
  · have hcond : (((List.range j).map f).drop (j - M) ++ [f j]).length > M := by
      rw [List.length_append, hlen]
      simp only [List.length_singleton]
      omega
    rw [if_pos hcond]
    have hle : j - M ≤ ((List.range j).map f).length := by
      simp
    rw [← List.drop_append_of_le_length hle, List.drop_drop, hr]
    congr 1
    omega

/-- After `j` consecutive `createSnapshot` calls starting from a session with
no snapshots, the registry holds the last `min j maxSnapshots` of the `j`
captured snapshots, in creation order. -/
theorem iterSnapshots_spec (st : MgrState) (sessionId : Nat) (now : Int)
    (sess : Session) (hget : mapGet st.sessions sessionId = some sess)
    (hsnap : mapGet st.snapshots sessionId = none) (j : Nat) :
    (iterSnapshots st sessionId now j).sessions = st.sessions ∧
    (iterSnapshots st sessionId now j).limits = st.limits ∧
    (iterSnapshots st sessionId now j).nextId = st.nextId + j ∧
    listSnapshots (iterSnapshots st sessionId now j) sessionId =
      ((List.range j).map (fun i => mkSnapAt sess sessionId now (st.nextId + i))).drop
        (j - st.limits.maxSnapshots) := by
  induction j with
  | zero =>
    refine ⟨rfl, rfl, rfl, ?_⟩
    simp [listSnapshots, iterSnapshots, hsnap]
  | succ j ih =>
    obtain ⟨hsess, hlim, hnext, hlist⟩ := ih
    have hgetj : mapGet (iterSnapshots st sessionId now j).sessions sessionId =
        some sess := by
      rw [hsess]
      exact hget
    obtain ⟨s1, l1, n1, ls1⟩ :=
      createSnapshotState_step (iterSnapshots st sessionId now j) sessionId now sess hgetj
    have hstep : iterSnapshots st sessionId now (j + 1) =
        createSnapshotState (iterSnapshots st sessionId now j) sessionId now := rfl
    refine ⟨?_, ?_, ?_, ?_⟩
    · rw [hstep, s1, hsess]
    · rw [hstep, l1, hlim]
    · rw [hstep, n1, hnext]
      omega
    · rw [hstep, ls1, hlist, hlim, hnext]
      exact windowPush (fun i => mkSnapAt sess sessionId now (st.nextId + i)) j
        st.limits.maxSnapshots

/-- C4: calling `createSnapshot` `maxSnapshots + k` times (k ≥ 1) on a
session that starts with no snapshots leaves `listSnapshots` with exactly
`maxSnapshots` entries, namely the most recently created ones — the first `k`
captured snapshots have been evicted, oldest first. -/
theorem C4_snapshot_window (st : MgrState) (sessionId : Nat) (now : Int)
    (sess : Session) (k : Nat)
    (hget : mapGet st.sessions sessionId = some sess)
    (hsnap : mapGet st.snapshots sessionId = none)
    (hk : 1 ≤ k) :
    listSnapshots (iterSnapshots st sessionId now (st.limits.maxSnapshots + k))
        sessionId =
      ((List.range (st.limits.maxSnapshots + k)).map
        (fun i => mkSnapAt sess sessionId now (st.nextId + i))).drop k ∧
    (listSnapshots (iterSnapshots st sessionId now (st.limits.maxSnapshots + k))
        sessionId).length = st.limits.maxSnapshots := by
  obtain ⟨-, -, -, hlist⟩ := iterSnapshots_spec st sessionId now sess hget hsnap
    (st.limits.maxSnapshots + k)
  have hd : st.limits.maxSnapshots + k - st.limits.maxSnapshots = k := by omega
  rw [hlist, hd]
  refine ⟨rfl, ?_⟩
  simp [List.length_drop]

/-- A fresh manager (default limits: `maxSnapshots = 50`) with one session. -/
def c4State : MgrState := (createSession (initialState defaultLimits) "u" none 0).1

/-- The session stored in `c4State`. -/
def c4Session : Session := (mapGet c4State.sessions 0).getD default

/-- C4 witness: the default-config scenario — 55 `createSnapshot` calls with
`maxSnapshots = 50` leave exactly 50 snapshots, the 50 most recent. -/
theorem C4_witness :
    mapGet c4State.sessions 0 = some c4Session ∧
    mapGet c4State.snapshots 0 = none ∧
    (1 : Nat) ≤ 5 ∧
    (listSnapshots (iterSnapshots c4State 0 7 (c4State.limits.maxSnapshots + 5)) 0 =
        ((List.range (c4State.limits.maxSnapshots + 5)).map
          (fun i => mkSnapAt c4Session 0 7 (c4State.nextId + i))).drop 5 ∧
      (listSnapshots (iterSnapshots c4State 0 7 (c4State.limits.maxSnapshots + 5))
          0).length = c4State.limits.maxSnapshots) :=
  ⟨rfl, rfl, by omega, C4_snapshot_window c4State 0 7 c4Session 5 rfl rfl (by omega)⟩

/-! ## Claim C7 -/

theorem setAdd_of_not_mem (s : List String) (v : String) (h : v ∉ s) :
    setAdd s v = s ++ [v] := by
  unfold setAdd
  rw [if_neg h]

theorem setFromArray_aux (l : List String) (acc : List String)
    (hdisj : ∀ x ∈ l, x ∉ acc) (hnodup : l.Nodup) :
    l.foldl setAdd acc = acc ++ l := by
  induction l generalizing acc with
  | nil => simp
  | cons x rest ih =>
    have hd' : ∀ y ∈ rest, y ∉ acc ++ [x] := by
      intro y hy hmem
      rcases List.mem_append.mp hmem with hya | hx
      · exact hdisj y (List.mem_cons_of_mem _ hy) hya
      · rw [List.mem_singleton] at hx
        exact (List.nodup_cons.mp hnodup).1 (hx ▸ hy)
    rw [List.foldl_cons, setAdd_of_not_mem acc x (hdisj x (List.mem_cons_self _ _)),
      ih (acc ++ [x]) hd' (List.nodup_cons.mp hnodup).2]
    simp

/-- `new Set(array)` is the identity on a duplicate-free array. -/
theorem setFromArray_of_nodup (l : List String) (h : l.Nodup) :
    setFromArray l = l := by
  unfold setFromArray
  rw [setFromArray_aux l [] (by simp) h]
  simp

theorem mapSet_append {κ α : Type} [DecidableEq κ] (m : List (κ × α)) (k : κ)
    (v : α) (h : ∀ p ∈ m, p.1 ≠ k) : mapSet m k v = m ++ [(k, v)] := by
  induction m with
  | nil => rfl
  | cons q rest ih =>
    obtain ⟨k', v'⟩ := q
    have hk : k' ≠ k := h (k', v') (List.mem_cons_self _ _)
    simp only [mapSet, if_neg hk]
    rw [ih (fun p hp => h p (List.mem_cons_of_mem _ hp))]
    rfl

theorem mapFromPairs_aux (pairs : List (String × Nat)) (m : List (String × Nat))
    (hdisj : ∀ p ∈ pairs, ∀ q ∈ m, q.1 ≠ p.1)
    (hnodup : (pairs.map Prod.fst).Nodup) :
    pairs.foldl (fun m p => mapSet m p.1 p.2) m = m ++ pairs := by
  induction pairs generalizing m with
  | nil => simp
  | cons p rest ih =>
    rw [List.map_cons, List.nodup_cons] at hnodup
    have hd' : ∀ p' ∈ rest, ∀ q ∈ m ++ [(p.1, p.2)], q.1 ≠ p'.1 := by
      intro p' hp' q hq
      rcases List.mem_append.mp hq with hqm | hqp
      · exact hdisj p' (List.mem_cons_of_mem _ hp') q hqm
      · rw [List.mem_singleton] at hqp
        subst hqp
        intro hcontra
        exact hnodup.1 (hcontra ▸ List.mem_map_of_mem Prod.fst hp')
    rw [List.foldl_cons,
      mapSet_append m p.1 p.2 (fun q hq => hdisj p (List.mem_cons_self _ _) q hq),
      ih (m ++ [(p.1, p.2)]) hd' hnodup.2]
    simp

/-- `new Map(pairs)` is the identity on an array of pairs with distinct
keys. -/
theorem mapFromPairs_of_nodup (pairs : List (String × Nat))
    (h : (pairs.map Prod.fst).Nodup) : mapFromPairs pairs = pairs := by
  unfold mapFromPairs
  rw [mapFromPairs_aux pairs [] (by simp) h]
  simp

/-- C7: `importSession` applied to the blob produced by `exportSession` on an
existing session yields a session preserving `userId` and
`context.currentProblem`, with `uniqueDomainsUsed` reconstituted as a set and
`toolUsage` as a mapping (equal to the originals, which are duplicate-free by
construction), under an id different from the exported session's id; the
blob's snapshots are re-keyed under the new id in the snapshot registry. -/
theorem C7_export_import (st : MgrState) (sessionId : Nat) (sess : Session)
    (now : Int)
    (hget : mapGet st.sessions sessionId = some sess)
    (hwf : MgrWF st)
    (hnd : sess.metrics.uniqueDomainsUsed.Nodup)
    (hnt : (sess.metrics.toolUsage.map Prod.fst).Nodup) :
    ∃ blob st' newSess,
      exportSession st sessionId now = .ok blob ∧
      importSession st blob = .ok (st', newSess) ∧
      newSess.userId = sess.userId ∧
      newSess.context.currentProblem = sess.context.currentProblem ∧
      newSess.metrics.uniqueDomainsUsed = sess.metrics.uniqueDomainsUsed ∧
      newSess.metrics.toolUsage = sess.metrics.toolUsage ∧
      newSess.id ≠ sess.id ∧
      mapGet st'.sessions newSess.id = some newSess ∧
      mapGet st'.snapshots newSess.id = some (listSnapshots st sessionId) := by
  have hexp : exportSession st sessionId now = .ok
      { session := sess, snapshots := (mapGet st.snapshots sessionId).getD [],
        exportTimestamp := now, version := "1.0.0" } := by
    unfold exportSession
    rw [hget]
  have hv : ¬ (("1.0.0" : String) = "") := by decide
  refine ⟨{ session := sess,
            snapshots := (mapGet st.snapshots sessionId).getD [],
            exportTimestamp := now, version := "1.0.0" },
    { st with
        sessions := mapSet st.sessions st.nextId
          { sess with id := st.nextId, metrics := { sess.metrics with
              uniqueDomainsUsed := setFromArray sess.metrics.uniqueDomainsUsed,
              toolUsage := mapFromPairs sess.metrics.toolUsage } },
        snapshots := mapSet st.snapshots st.nextId
          ((mapGet st.snapshots sessionId).getD []),
        nextId := st.nextId + 1 },
    { sess with id := st.nextId, metrics := { sess.metrics with
        uniqueDomainsUsed := setFromArray sess.metrics.uniqueDomainsUsed,
        toolUsage := mapFromPairs sess.metrics.toolUsage } },
    hexp, ?_, rfl, rfl, setFromArray_of_nodup _ hnd,
    mapFromPairs_of_nodup _ hnt,
    Nat.ne_of_gt (hwf.2.1 _ (mapGet_mem _ _ _ hget)),
    mapGet_mapSet_self _ _ _,
    mapGet_mapSet_self _ _ _⟩
  unfold importSession
  rw [if_neg hv]

/-- A manager with one session that has used a domain and a tool. -/
def c7State : MgrState :=
  updateMetrics
    (updateMetrics (createSession (initialState defaultLimits) "u7" (some "prob") 0).1
      0 (.domain "physics") 0)
    0 (.toolUsage "generate_creative_lens_prompt") 0

/-- The session stored in `c7State`. -/
def c7Session : Session := (mapGet c7State.sessions 0).getD default

/-- C7 witness: the round trip applied to the concrete session of `c7State`. -/
theorem C7_witness :
    mapGet c7State.sessions 0 = some c7Session ∧
    MgrWF c7State ∧
    c7Session.metrics.uniqueDomainsUsed.Nodup ∧
    (c7Session.metrics.toolUsage.map Prod.fst).Nodup ∧
    (∃ blob st' newSess,
      exportSession c7State 0 3 = .ok blob ∧
      importSession c7State blob = .ok (st', newSess) ∧
      newSess.userId = c7Session.userId ∧
      newSess.context.currentProblem = c7Session.context.currentProblem ∧
      newSess.metrics.uniqueDomainsUsed = c7Session.metrics.uniqueDomainsUsed ∧
      newSess.metrics.toolUsage = c7Session.metrics.toolUsage ∧
      newSess.id ≠ c7Session.id ∧
      mapGet st'.sessions newSess.id = some newSess ∧
      mapGet st'.snapshots newSess.id = some (listSnapshots c7State 0)) :=
  ⟨rfl, by decide, by decide, by decide,
    C7_export_import c7State 0 c7Session 3 rfl (by decide) (by decide) (by decide)⟩

/-! ## Claim C3 -/

theorem initialState_wf (limits : StateManagerLimits) :
    MgrWF (initialState limits) := by
  refine ⟨?_, ?_, ?_, ?_, ?_, ?_⟩ <;> intro q hq <;> simp [initialState] at hq

/-- C3 (amended): (1) along any call sequence that starts from a fresh
manager, uses the public mutating operations, and contains no
`importSession`, the live session count never exceeds `maxSessions`
(provided `maxSessions ≥ 1`); (2) whenever `createSession` runs with the
count at or above `maxSessions`, the single session with the smallest
`lastActivity` (the first such, in registry order) is deleted together with
its snapshots before the new session is inserted; (3) `createSession` always
succeeds, returning a fresh session registered under a never-before-used
id. -/
theorem C3_capacity :
    (∀ (limits : StateManagerLimits) (ops : List MgrOp),
      (∀ op ∈ ops, ¬ op.isImport) → 1 ≤ limits.maxSessions →
      (runOps (initialState limits) ops).sessions.length ≤ limits.maxSessions) ∧
    (∀ (st : MgrState) (userId : String) (initialProblem : Option String)
        (now : Int) (oldest : Session),
      st.sessions.length ≥ st.limits.maxSessions →
      findOldestSession (st.sessions.map Prod.snd) = some oldest →
      oldest ∈ st.sessions.map Prod.snd ∧
      (∀ s ∈ st.sessions.map Prod.snd, oldest.lastActivity ≤ s.lastActivity) ∧
      (createSession st userId initialProblem now).1.sessions =
        mapSet (mapDelete st.sessions oldest.id) st.nextId
          (createSession st userId initialProblem now).2 ∧
      (createSession st userId initialProblem now).1.snapshots =
        mapDelete st.snapshots oldest.id) ∧
    (∀ (st : MgrState) (userId : String) (initialProblem : Option String)
        (now : Int),
      (createSession st userId initialProblem now).2.id = st.nextId ∧
      (createSession st userId initialProblem now).2.userId = userId ∧
      mapGet (createSession st userId initialProblem now).1.sessions
          (createSession st userId initialProblem now).2.id =
        some (createSession st userId initialProblem now).2) := by
  refine ⟨?_, ?_, ?_⟩
  · intro limits ops hni h1
    exact (runOps_inv ops (initialState limits) hni (initialState_wf limits)
      (by simp [initialState]) h1).2.1
  · intro st userId initialProblem now oldest hcap hfind
    obtain ⟨hmem, hmin⟩ := findOldestSession_spec _ _ hfind
    have hev : evictIfFull st = (deleteSession st oldest.id).1 := by
      unfold evictIfFull
      rw [if_pos hcap, hfind]
    refine ⟨hmem, hmin, ?_, ?_⟩
    · have ha : (createSession st userId initialProblem now).1.sessions =
          mapSet (evictIfFull st).sessions (evictIfFull st).nextId
            (createSession st userId initialProblem now).2 := rfl
      rw [ha, hev]
      rfl
    · have hb : (createSession st userId initialProblem now).1.snapshots =
          (evictIfFull st).snapshots := rfl
      rw [hb, hev]
      rfl
  · intro st userId initialProblem now
    exact ⟨evictIfFull_nextId st, rfl, mapGet_mapSet_self _ _ _⟩

/-- Limits with `maxSessions = 1`. -/
def c3Limits : StateManagerLimits := { defaultLimits with maxSessions := 1 }

/-- A manager at capacity: one session, `maxSessions = 1`. -/
def c3St : MgrState := (createSession (initialState c3Limits) "a" none 0).1

/-- An export blob produced by `exportSession` on the live session of
`c3St`. -/
def c3Blob : ExportData :=
  (exportSession c3St 0 0).toOption.getD ⟨default, [], 0, ""⟩

/-- The session `createSession`'s eviction sort would pick in `c3St`. -/
def c3Oldest : Session :=
  (findOldestSession (c3St.sessions.map Prod.snd)).getD default

/-- C3 counterexample: a `createSession` call interleaved with one other
public operation — `importSession` of a blob exported from the live session
— pushes the live session count above `maxSessions`. -/
theorem C3_counterexample :
    (runOps (initialState c3Limits)
        [.create "a" none 0, .importOp c3Blob]).sessions.length >
      c3Limits.maxSessions := by
  decide

/-- C3 witness: the capacity bound on a concrete import-free sequence that
overflows `maxSessions = 1`, and the eviction clause at the full `c3St`. -/
theorem C3_witness :
    (∀ op ∈ ([.create "a" none 0, .create "b" none 1, .create "c" none 2] :
        List MgrOp), ¬ op.isImport) ∧
    1 ≤ c3Limits.maxSessions ∧
    (runOps (initialState c3Limits)
        [.create "a" none 0, .create "b" none 1, .create "c" none 2]).sessions.length ≤
      c3Limits.maxSessions ∧
    c3St.sessions.length ≥ c3St.limits.maxSessions ∧
    findOldestSession (c3St.sessions.map Prod.snd) = some c3Oldest ∧
    (c3Oldest ∈ c3St.sessions.map Prod.snd ∧
      (∀ s ∈ c3St.sessions.map Prod.snd, c3Oldest.lastActivity ≤ s.lastActivity) ∧
      (createSession c3St "d" none 9).1.sessions =
        mapSet (mapDelete c3St.sessions c3Oldest.id) c3St.nextId
          (createSession c3St "d" none 9).2 ∧
      (createSession c3St "d" none 9).1.snapshots =
        mapDelete c3St.snapshots c3Oldest.id) :=
  ⟨by decide, by decide,
    C3_capacity.1 c3Limits [.create "a" none 0, .create "b" none 1, .create "c" none 2]
      (by decide) (by decide),
    by decide, rfl,
    C3_capacity.2.1 c3St "d" none 9 c3Oldest (by decide) rfl⟩

/-! ## Claim C1 -/

/-- The three operations the claim calls "mutations of the live session". -/
def MgrOp.isSessionMutation : MgrOp → Prop
  | .update _ _ _ => True
  | .addCtx _ _ _ => True
  | .metrics _ _ _ => True
  | _ => False

instance : DecidablePred MgrOp.isSessionMutation := by
  intro op
  cases op <;> simp [MgrOp.isSessionMutation] <;> infer_instance

theorem stepOp_snapshots_of_mutation (st : MgrState) (op : MgrOp)
    (h : op.isSessionMutation) : (stepOp st op).snapshots = st.snapshots := by
  cases op with
  | update sessionId updates now => exact updateSessionState_snapshots st sessionId updates now
  | addCtx sessionId data now => exact addToContext_snapshots st sessionId data now
  | metrics sessionId m now => exact updateMetrics_snapshots st sessionId m now
  | create userId initialProblem now => exact h.elim
  | delete sessionId => exact h.elim
  | snapshot sessionId now => exact h.elim
  | rollback snapshotId => exact h.elim
  | cleanup maxInactiveMs now => exact h.elim
  | importOp blob => exact h.elim

/-- `addToContext`, `updateMetrics` and `updateSession` never touch the
snapshot registry, in any number and order. -/
theorem runOps_snapshots_of_mutations (muts : List MgrOp) (st : MgrState)
    (h : ∀ op ∈ muts, op.isSessionMutation) :
    (runOps st muts).snapshots = st.snapshots := by
  induction muts generalizing st with
  | nil => rfl
  | cons op rest ih =>
    calc (runOps (stepOp st op) rest).snapshots = (stepOp st op).snapshots :=
          ih (stepOp st op) (fun o ho => h o (List.mem_cons_of_mem _ ho))
      _ = st.snapshots := stepOp_snapshots_of_mutation st op (h op (List.mem_cons_self _ _))

/-- `find?` on a list ending in the only element satisfying the predicate. -/
theorem find?_fresh (L0 : List StateSnapshot) (snap : StateSnapshot)
    (h : ∀ s ∈ L0, s.id ≠ snap.id) :
    (L0 ++ [snap]).find? (fun s => s.id = snap.id) = some snap := by
  induction L0 with
  | nil => simp
  | cons a rest ih =>
    have ha : ¬ ((fun s : StateSnapshot => decide (s.id = snap.id)) a = true) := by
      simp
      exact h a (List.mem_cons_self _ _)
    rw [List.cons_append, List.find?_cons_of_neg (rest ++ [snap]) ha]
    exact ih fun s hs => h s (List.mem_cons_of_mem _ hs)

/-- The registry scan finds a snapshot whose id no other snapshot carries,
inside the entry that was just written. -/
theorem findSnapshotEntry_fresh (entries : List (Nat × List StateSnapshot))
    (sessionId : Nat) (L : List StateSnapshot) (snap : StateSnapshot)
    (hothers : ∀ q ∈ entries, ∀ sn ∈ q.2, sn.id ≠ snap.id)
    (hfind : L.find? (fun s => s.id = snap.id) = some snap) :
    findSnapshotEntry (mapSet entries sessionId L) snap.id = some (sessionId, snap) := by
  induction entries with
  | nil =>
    simp only [mapSet, findSnapshotEntry]
    rw [hfind]
  | cons q rest ih =>
    obtain ⟨k, snaps⟩ := q
    by_cases hk : k = sessionId
    · simp only [mapSet, if_pos hk, findSnapshotEntry]
      rw [hfind]
    · simp only [mapSet, if_neg hk, findSnapshotEntry]
      have hnone : snaps.find? (fun s => s.id = snap.id) = none := by
        rw [List.find?_eq_none]
        intro sn hsn
        simpa using hothers (k, snaps) (List.mem_cons_self _ _) sn hsn
      rw [hnone]
      exact ih fun q hq => hothers q (List.mem_cons_of_mem _ hq)

/-- C1 (amended): `createSnapshot` captures a deep, independent copy of the
session's plain-JSON data — userId, timestamps, the whole context, the
preferences and the numeric metrics — but the JSON-based clone EMPTIES the
`Set`/`Map` metric collections (`uniqueDomainsUsed`, `toolUsage`) instead of
copying them; any subsequent sequence of `addToContext` / `updateMetrics` /
`updateSession` calls leaves the stored snapshot (hence `s.state`) unchanged,
and `rollbackToSnapshot(s.id)` followed by `getSession` returns a session
whose `context` deep-equals `s.state.context`. -/
theorem C1_snapshot_clone (st : MgrState) (sessionId : Nat) (sess : Session)
    (now : Int)
    (hget : mapGet st.sessions sessionId = some sess)
    (hwf : MgrWF st)
    (hmax : 1 ≤ st.limits.maxSnapshots) :
    ∃ st1 snap,
      createSnapshot st sessionId now = .ok (st1, snap) ∧
      snap.sessionId = sessionId ∧
      snap.state.userId = sess.userId ∧
      snap.state.startTime = sess.startTime ∧
      snap.state.lastActivity = sess.lastActivity ∧
      snap.state.context = sess.context ∧
      snap.state.preferences = sess.preferences ∧
      snap.state.metrics.totalGenerations = sess.metrics.totalGenerations ∧
      snap.state.metrics.averageMadnessIndex = sess.metrics.averageMadnessIndex ∧
      snap.state.metrics.successfulHybrids = sess.metrics.successfulHybrids ∧
      snap.state.metrics.uniqueDomainsUsed = [] ∧
      snap.state.metrics.toolUsage = [] ∧
      ∀ muts : List MgrOp, (∀ op ∈ muts, op.isSessionMutation) →
        snap ∈ listSnapshots (runOps st1 muts) sessionId ∧
        rollbackToSnapshot (runOps st1 muts) snap.id =
          .ok ({ runOps st1 muts with
                 sessions := mapSet (runOps st1 muts).sessions sessionId
                   (jsonCloneSession snap.state) },
            jsonCloneSession snap.state) ∧
        getSession { runOps st1 muts with
                     sessions := mapSet (runOps st1 muts).sessions sessionId
                       (jsonCloneSession snap.state) } sessionId =
          some (jsonCloneSession snap.state) ∧
        (jsonCloneSession snap.state).context = snap.state.context := by
  set SNAP : StateSnapshot :=
    { id := st.nextId, sessionId := sessionId, timestamp := now,
      state := jsonCloneSession sess, checksum := sess } with hSNAP
  set L0 : List StateSnapshot := (mapGet st.snapshots sessionId).getD [] with hL0def
  set NL : List StateSnapshot :=
    if (L0 ++ [SNAP]).length > st.limits.maxSnapshots then (L0 ++ [SNAP]).drop 1
    else L0 ++ [SNAP] with hNLdef
  have hcreate : createSnapshot st sessionId now = .ok
      ({ st with snapshots := mapSet st.snapshots sessionId NL,
                 nextId := st.nextId + 1 }, SNAP) := by
    unfold createSnapshot
    rw [hget]
  have hids : ∀ s ∈ L0, s.id ≠ SNAP.id := by
    rw [hL0def]
    cases hsget : mapGet st.snapshots sessionId with
    | none => simp
    | some L0' =>
      intro s hs
      rw [Option.getD_some] at hs
      exact Nat.ne_of_lt (hwf.2.2.2.2.1 _ (mapGet_mem _ _ _ hsget) s hs)
  have hothers : ∀ q ∈ st.snapshots, ∀ sn ∈ q.2, sn.id ≠ SNAP.id := by
    intro q hq sn hsn
    exact Nat.ne_of_lt (hwf.2.2.2.2.1 q hq sn hsn)
  have hmem : SNAP ∈ NL := by
    rw [hNLdef]
    split
    · rename_i hdrop
      have h1 : 1 ≤ L0.length := by
        rw [List.length_append] at hdrop
        simp only [List.length_singleton] at hdrop
        omega
      rw [List.drop_append_of_le_length h1]
      simp
    · simp
  have hfind : NL.find? (fun s => s.id = SNAP.id) = some SNAP := by
    rw [hNLdef]
    split
    · rename_i hdrop
      have h1 : 1 ≤ L0.length := by
        rw [List.length_append] at hdrop
        simp only [List.length_singleton] at hdrop
        omega
      rw [List.drop_append_of_le_length h1]
      exact find?_fresh (L0.drop 1) SNAP fun s hs => hids s (List.mem_of_mem_drop hs)
    · exact find?_fresh L0 SNAP hids
  refine ⟨_, _, hcreate, rfl, rfl, rfl, rfl, rfl, rfl, rfl, rfl, rfl, rfl, rfl, ?_⟩
  intro muts hmuts
  have hsn : (runOps { st with
                       snapshots := mapSet st.snapshots sessionId NL,
                       nextId := st.nextId + 1 } muts).snapshots =
      mapSet st.snapshots sessionId NL :=
    runOps_snapshots_of_mutations muts _ hmuts
  have hlist : listSnapshots (runOps { st with
                               snapshots := mapSet st.snapshots sessionId NL,
                               nextId := st.nextId + 1 } muts) sessionId = NL := by
    unfold listSnapshots
    rw [hsn, mapGet_mapSet_self]
    rfl
  have hfe : findSnapshotEntry (runOps { st with
                                 snapshots := mapSet st.snapshots sessionId NL,
                                 nextId := st.nextId + 1 } muts).snapshots SNAP.id =
      some (sessionId, SNAP) := by
    rw [hsn]
    exact findSnapshotEntry_fresh st.snapshots sessionId NL SNAP hothers hfind
  refine ⟨?_, ?_, ?_, rfl⟩
  · rw [hlist]
    exact hmem
  · unfold rollbackToSnapshot
    rw [hfe]
  · unfold getSession
    exact mapGet_mapSet_self _ _ _

/-- A manager whose single session has used the domain `"physics"`. -/
def c1St : MgrState :=
  updateMetrics (createSession (initialState defaultLimits) "u1" (some "p") 0).1
    0 (.domain "physics") 0

/-- The session stored in `c1St`. -/
def c1Session : Session := (mapGet c1St.sessions 0).getD default

/-- C1 counterexample: the live session's domain-usage set holds
`"physics"`, but the snapshot produced by `createSnapshot` holds an EMPTY
domain-usage set — the `JSON.parse(JSON.stringify(…))` clone does not copy
the `Set` — so the snapshot is not a full copy of the nested collections. -/
theorem C1_counterexample :
    (mapGet c1St.sessions 0).map (fun s => s.metrics.uniqueDomainsUsed) =
      some ["physics"] ∧
    (createSnapshot c1St 0 1).toOption.map
      (fun pr => pr.2.state.metrics.uniqueDomainsUsed) = some [] ∧
    (createSnapshot c1St 0 1).toOption.map
        (fun pr => pr.2.state.metrics.uniqueDomainsUsed) ≠
      (mapGet c1St.sessions 0).map (fun s => s.metrics.uniqueDomainsUsed) := by
  refine ⟨by decide, by decide, by decide⟩

/-- C1 witness: the amended snapshot/rollback property applied to `c1St`. -/
theorem C1_witness :
    mapGet c1St.sessions 0 = some c1Session ∧
    MgrWF c1St ∧
    1 ≤ c1St.limits.maxSnapshots ∧
    (∃ st1 snap,
      createSnapshot c1St 0 1 = .ok (st1, snap) ∧
      snap.sessionId = 0 ∧
      snap.state.userId = c1Session.userId ∧
      snap.state.startTime = c1Session.startTime ∧
      snap.state.lastActivity = c1Session.lastActivity ∧
      snap.state.context = c1Session.context ∧
      snap.state.preferences = c1Session.preferences ∧
      snap.state.metrics.totalGenerations = c1Session.metrics.totalGenerations ∧
      snap.state.metrics.averageMadnessIndex =
        c1Session.metrics.averageMadnessIndex ∧
      snap.state.metrics.successfulHybrids = c1Session.metrics.successfulHybrids ∧
      snap.state.metrics.uniqueDomainsUsed = [] ∧
      snap.state.metrics.toolUsage = [] ∧
      ∀ muts : List MgrOp, (∀ op ∈ muts, op.isSessionMutation) →
        snap ∈ listSnapshots (runOps st1 muts) 0 ∧
        rollbackToSnapshot (runOps st1 muts) snap.id =
          .ok ({ runOps st1 muts with
                 sessions := mapSet (runOps st1 muts).sessions 0
                   (jsonCloneSession snap.state) },
            jsonCloneSession snap.state) ∧
        getSession { runOps st1 muts with
                     sessions := mapSet (runOps st1 muts).sessions 0
                       (jsonCloneSession snap.state) } 0 =
          some (jsonCloneSession snap.state) ∧
        (jsonCloneSession snap.state).context = snap.state.context) :=
  ⟨rfl, by decide, by decide,
    C1_snapshot_clone c1St 0 c1Session 1 rfl (by decide) (by decide)⟩
